import Mathlib

/-!
Verification of the access-provisioning core of `telemt-admin`.

The definitions below are a shallow embedding of `src/db.rs` (the SQLite
layer for registration requests and invite tokens) and of the provisioning
workflow in `src/bot/handlers/shared.rs`.  A SQL table is embedded as a
`List` of rows; each SQL statement of the source becomes a Lean function on
the table, with `rows_affected` made explicit where the source inspects it.
Machine integers (`i64`) are embedded as `Int`, with the `checked_mul` /
`checked_add` range checks of the source made explicit where the source
performs them.  The Credential Store (`crate::telemt_cfg`) and the link
builder (`crate::link`) are not part of the sources; the few operations the
workflow needs are modelled from the spec and marked as such.
-/

namespace TelemtAdmin


/-- Error type of `Db::consume_invite_token` (db.rs, `TokenConsumeError`). -/
inductive TokenConsumeError where
  | NotFound
  | Revoked
  | Expired
  | UsageLimitReached
deriving DecidableEq, Repr

/-- One row of the `invite_tokens` table (db.rs, struct `InviteToken` plus the
`revoked_at` column that the Rust projection omits). -/
structure InviteToken where
  id : Int
  token : String
  created_at : Int
  expires_at : Int
  auto_approve : Bool
  created_by : Option Int
  usage_count : Int
  max_usage : Option Int
  is_active : Bool
  revoked_at : Option Int
deriving DecidableEq, Repr

/-- `TokenMode` of db.rs. -/
inductive TokenMode where
  | Manual
  | AutoApprove
deriving DecidableEq, Repr

/-- `ConsumedInviteToken` of db.rs: the row returned by a successful consume. -/
structure ConsumedInviteToken where
  id : Int
  token : String
  mode : TokenMode
  expires_at : Int
  created_by : Option Int
  usage_count : Int
  max_usage : Option Int
deriving DecidableEq, Repr

/-- The `invite_tokens` table. -/
abbrev TokenStore := List InviteToken

/-- The UNIQUE constraint on `invite_tokens.token`. -/
abbrev tokensUnique (s : TokenStore) : Prop :=
  (s.map (fun r => r.token)).Nodup

/-- WHERE clause of the conditional UPDATE in `Db::consume_invite_token`
(db.rs lines 550-557): `is_active = 1 AND expires_at > ? AND
(max_usage IS NULL OR usage_count < max_usage)`, for a fixed row. -/
def consumeGuard (now : Int) (r : InviteToken) : Bool :=
  r.is_active && decide (now < r.expires_at) &&
    (match r.max_usage with
     | none => true
     | some m => decide (r.usage_count < m))

/-- The derived usable predicate of the spec (section 3): a token is usable iff
`isActive ∧ now < expiresAt ∧ (maxUsage absent ∨ usageCount < maxUsage)`. -/
def tokenUsable (now : Int) (r : InviteToken) : Prop :=
  r.is_active = true ∧ now < r.expires_at ∧ ∀ m ∈ r.max_usage, r.usage_count < m

/-- The conditional UPDATE of `Db::consume_invite_token`: increment
`usage_count` on every row matching the WHERE clause; the first component is
`rows_affected`. -/
def updateConsume (s : TokenStore) (tok : String) (now : Int) : Nat × TokenStore :=
  ((s.filter (fun r => r.token == tok && consumeGuard now r)).length,
   s.map (fun r =>
     if r.token == tok && consumeGuard now r then
       { r with usage_count := r.usage_count + 1 }
     else r))

/-- `SELECT ... FROM invite_tokens WHERE token = ?` (db.rs). -/
def findToken (s : TokenStore) (tok : String) : Option InviteToken :=
  s.find? (fun r => r.token == tok)

/-- The diagnostic classification of an unusable-but-present row
(db.rs lines 576-585): Revoked, then Expired, then UsageLimitReached, then
NotFound as the fallback. -/
def classifyUnusable (now : Int) (r : InviteToken) : TokenConsumeError :=
  if !r.is_active then TokenConsumeError.Revoked
  else if r.expires_at ≤ now then TokenConsumeError.Expired
  else if r.max_usage.any (fun m => decide (m ≤ r.usage_count)) then
    TokenConsumeError.UsageLimitReached
  else TokenConsumeError.NotFound

/-- The `ConsumedInviteToken` built from the re-read row (db.rs lines 596-608). -/
def consumedOf (r : InviteToken) : ConsumedInviteToken :=
  { id := r.id
    token := r.token
    mode := if r.auto_approve then TokenMode.AutoApprove else TokenMode.Manual
    expires_at := r.expires_at
    created_by := r.created_by
    usage_count := r.usage_count
    max_usage := r.max_usage }

/-- `Db::consume_invite_token` (db.rs lines 545-609): one atomic conditional
UPDATE; if zero rows were affected, a follow-up read classifies the failure;
on success the post-increment row is re-read and returned with its mode. -/
def consume_invite_token (s : TokenStore) (tok : String) (now : Int) :
    Except TokenConsumeError ConsumedInviteToken × TokenStore :=
  let res := updateConsume s tok now
  if res.1 = 0 then
    match findToken res.2 tok with
    | none => (Except.error TokenConsumeError.NotFound, res.2)
    | some row => (Except.error (classifyUnusable now row), res.2)
  else
    match findToken res.2 tok with
    | none => (Except.error TokenConsumeError.NotFound, res.2)
    | some row => (Except.ok (consumedOf row), res.2)

/-- `Db::revoke_invite_token` (db.rs lines 533-543): `UPDATE invite_tokens SET
is_active = 0, revoked_at = ? WHERE token = ? AND is_active = 1`; returns
whether any row was affected. -/
def revoke_invite_token (s : TokenStore) (tok : String) (now : Int) :
    Bool × TokenStore :=
  (decide (0 < (s.filter (fun r => r.token == tok && r.is_active)).length),
   s.map (fun r =>
     if r.token == tok && r.is_active then
       { r with is_active := false, revoked_at := some now }
     else r))

/-! ### Characterization of `consume_invite_token` and `revoke_invite_token` -/

/-- The image of one row under the conditional-increment UPDATE, keyed only on
the token (legitimate when the token's unique row passes the guard). -/
def bumpIfTok (tok : String) (r : InviteToken) : InviteToken :=
  if r.token == tok then { r with usage_count := r.usage_count + 1 } else r

/-- The image of one row under the revocation UPDATE, keyed only on the token. -/
def revokeIfTok (now : Int) (tok : String) (r : InviteToken) : InviteToken :=
  if r.token == tok then { r with is_active := false, revoked_at := some now } else r

/-- A sample token store used by the witnesses. -/
def sampleToken : InviteToken :=
  { id := 1
    token := "abHJ3k9QwZ"
    created_at := 0
    expires_at := 100
    auto_approve := false
    created_by := some 7
    usage_count := 0
    max_usage := some 3
    is_active := true
    revoked_at := none }

/-- M attempts to consume the same token string, one after the other.  Since
the only mutating step of `Db::consume_invite_token` is its single atomic
conditional UPDATE, an arbitrary interleaving of M concurrent consume calls
is some sequential order of these atomic steps, which this function runs.
Returns (number of successes, number of UsageLimitReached failures, final
store). -/
def runConsume (tok : String) (now : Int) : Nat → TokenStore → Nat × Nat × TokenStore
  | 0, s => (0, 0, s)
  | m + 1, s =>
    let step := consume_invite_token s tok now
    let rest := runConsume tok now m step.2
    match step.1 with
    | Except.ok _ => (rest.1 + 1, rest.2.1, rest.2.2)
    | Except.error e =>
        (rest.1,
         (if e = TokenConsumeError.UsageLimitReached then rest.2.1 + 1 else rest.2.1),
         rest.2.2)

/-! ### Registration requests (db.rs, table `registration_requests`) -/

/-- One row of `registration_requests` (db.rs struct `RegistrationRequest`,
plus the `resolved_at` column that the Rust projection omits). -/
structure RegistrationRequest where
  id : Int
  tg_user_id : Int
  tg_username : Option String
  tg_display_name : Option String
  status : String
  telemt_username : Option String
  secret : Option String
  created_at : Int
  resolved_at : Option Int
deriving DecidableEq, Repr

/-- The `registration_requests` table. -/
abbrev RequestStore := List RegistrationRequest

/-- The PRIMARY KEY on `registration_requests.id`. -/
abbrev requestIdsUnique (s : RequestStore) : Prop :=
  (s.map (fun r => r.id)).Nodup

/-- The UNIQUE constraint on `registration_requests.tg_user_id`. -/
abbrev tgUsersUnique (s : RequestStore) : Prop :=
  (s.map (fun r => r.tg_user_id)).Nodup

/-- `SELECT ... WHERE id = ? AND status = 'pending'` (db.rs, used by
`get_pending_by_id` and as the first statement of `approve` / `reject`). -/
def get_pending_by_id (s : RequestStore) (id : Int) : Option RegistrationRequest :=
  s.find? (fun r => r.id == id && r.status == "pending")

/-- `SELECT ... WHERE tg_user_id = ? AND status = 'pending'` (db.rs). -/
def get_pending_by_tg_user (s : RequestStore) (uid : Int) : Option RegistrationRequest :=
  s.find? (fun r => r.tg_user_id == uid && r.status == "pending")

/-- `SELECT ... WHERE tg_user_id = ?` (db.rs, `get_request_by_tg_user` and the
first statement of `register_or_get`). -/
def get_request_by_tg_user (s : RequestStore) (uid : Int) : Option RegistrationRequest :=
  s.find? (fun r => r.tg_user_id == uid)

/-- The UPDATE of `Db::approve` (db.rs lines 324-332): `SET status='approved',
telemt_username=?, secret=?, resolved_at=? WHERE id = ?`.  Note the WHERE
clause keys on id only — it carries no status condition. -/
def approveUpdate (s : RequestStore) (id : Int) (user sec : String) (now : Int) :
    RequestStore :=
  s.map (fun r =>
    if r.id == id then
      { r with status := "approved", telemt_username := some user,
               secret := some sec, resolved_at := some now }
    else r)

/-- `Db::approve` (db.rs lines 304-335): SELECT the row by id-and-pending; if
absent return None; otherwise run the UPDATE and return the prior row.  The
SELECT and the UPDATE are two separate SQL statements. -/
def approve (s : RequestStore) (id : Int) (user sec : String) (now : Int) :
    Option RegistrationRequest × RequestStore :=
  match get_pending_by_id s id with
  | none => (none, s)
  | some req => (some req, approveUpdate s id user sec now)

/-- The UPDATE of `Db::reject` (db.rs lines 350-356), also keyed on id only. -/
def rejectUpdate (s : RequestStore) (id : Int) (now : Int) : RequestStore :=
  s.map (fun r =>
    if r.id == id then
      { r with status := "rejected", resolved_at := some now }
    else r)

/-- `Db::reject` (db.rs lines 338-359). -/
def reject (s : RequestStore) (id : Int) (now : Int) :
    Option RegistrationRequest × RequestStore :=
  match get_pending_by_id s id with
  | none => (none, s)
  | some req => (some req, rejectUpdate s id now)

/-- Two concurrent `Db::approve` transactions on the same request id,
interleaved as select-A, select-B, update-A, update-B.  Each SQL statement
is individually atomic, but the SELECT and the UPDATE of one `approve` call
are separate autocommit statements on a connection pool, so this
interleaving is realizable.  Returns both callers' results and the final
store. -/
def approveRace (s : RequestStore) (id : Int) (uA sA uB sB : String)
    (now : Int) : Option RegistrationRequest × Option RegistrationRequest × RequestStore :=
  let fetchA := get_pending_by_id s id
  let fetchB := get_pending_by_id s id
  let s1 := match fetchA with
            | some _ => approveUpdate s id uA sA now
            | none => s
  let s2 := match fetchB with
            | some _ => approveUpdate s1 id uB sB now
            | none => s1
  (fetchA, fetchB, s2)

/-- A concrete Pending row for the race counterexample. -/
def racePendingRow : RegistrationRequest :=
  { id := 1
    tg_user_id := 100
    tg_username := some "alice"
    tg_display_name := some "Alice"
    status := "pending"
    telemt_username := none
    secret := none
    created_at := 0
    resolved_at := none }

/-! ### `Db::register_or_get` (db.rs lines 218-273) -/

/-- `RegisterResult` of db.rs. -/
inductive RegisterResult where
  | Approved (secret : String)
  | NewPending (req : RegistrationRequest)
  | AlreadyPending
  | Rejected
deriving DecidableEq, Repr

/-- The request table together with its AUTOINCREMENT counter. -/
structure RequestDb where
  rows : RequestStore
  next_id : Int
deriving DecidableEq, Repr

/-- The metadata-refresh UPDATE of `register_or_get` (db.rs lines 244-252):
`SET tg_username = ?, tg_display_name = ?, created_at = ? WHERE tg_user_id = ?`. -/
def refreshMeta (s : RequestStore) (uid : Int) (uname dname : Option String)
    (now : Int) : RequestStore :=
  s.map (fun x =>
    if x.tg_user_id == uid then
      { x with tg_username := uname, tg_display_name := dname, created_at := now }
    else x)

/-- `Db::register_or_get` (db.rs lines 218-273): look the identity up; on
"approved" return the secret (or AlreadyPending if the secret is absent); on
"rejected" return Rejected; on any other status (the `_` match arm: pending,
deleted, ...) refresh the display metadata in place and return
AlreadyPending; with no row, INSERT a pending row and re-read it (the `none`
result of the re-read models the "только что создали заявку" error path). -/
def register_or_get (db : RequestDb) (uid : Int) (uname dname : Option String)
    (now : Int) : Option (RegisterResult × RequestDb) :=
  match get_request_by_tg_user db.rows uid with
  | some r =>
    if r.status == "approved" then
      match r.secret with
      | some s => some (RegisterResult.Approved s, db)
      | none => some (RegisterResult.AlreadyPending, db)
    else if r.status == "rejected" then
      some (RegisterResult.Rejected, db)
    else
      some (RegisterResult.AlreadyPending,
        { db with rows := refreshMeta db.rows uid uname dname now })
  | none =>
    let newRow : RegistrationRequest :=
      { id := db.next_id
        tg_user_id := uid
        tg_username := uname
        tg_display_name := dname
        status := "pending"
        telemt_username := none
        secret := none
        created_at := now
        resolved_at := none }
    let db2 : RequestDb := { rows := db.rows ++ [newRow], next_id := db.next_id + 1 }
    match get_pending_by_tg_user db2.rows uid with
    | some req => some (RegisterResult.NewPending req, db2)
    | none => none

/-- The n-th sequential call of `register_or_get` for the same identity:
index 0 is the first call; each call feeds its database into the next. -/
def registerNTimes (uid : Int) (uname dname : Option String) (now : Int) :
    Nat → RequestDb → Option (RegisterResult × RequestDb)
  | 0, db => register_or_get db uid uname dname now
  | n + 1, db =>
    match register_or_get db uid uname dname now with
    | some (_, db2) => registerNTimes uid uname dname now n db2
    | none => none

/-- `Db::get_approved` (db.rs lines 431-442): SELECT the approved row of the
identity and zip its username with its secret. -/
def get_approved (s : RequestStore) (uid : Int) : Option (String × String) :=
  match s.find? (fun r => r.tg_user_id == uid && r.status == "approved") with
  | none => none
  | some r =>
    match r.telemt_username, r.secret with
    | some u, some sec => some (u, sec)
    | _, _ => none

/-- A concrete deleted row for the C10 witness. -/
def deletedRow : RegistrationRequest :=
  { id := 2
    tg_user_id := 200
    tg_username := some "bob"
    tg_display_name := some "Bob"
    status := "deleted"
    telemt_username := some "tg_200"
    secret := some "oldsecret"
    created_at := 0
    resolved_at := some 1 }

/-! ### Provisioning workflow (src/bot/handlers/shared.rs) -/

/-- Contents of the Credential Store: username-secret pairs.
Modelled from the spec: `crate::telemt_cfg` is not under src/; section 6 of
the spec specifies the collaborator as `upsert(username, secret)`,
`remove(username) -> bool (removed)` and `readLinkParams()`. -/
abbrev CredStore := List (String × String)

/-- Modelled from the spec: `upsert(username, secret)` of the Credential
Store — replace the secret of an existing username or append a new entry. -/
def upsert_user (cfg : CredStore) (user sec : String) : CredStore :=
  if cfg.any (fun p => p.1 == user) then
    cfg.map (fun p => if p.1 == user then (user, sec) else p)
  else cfg ++ [(user, sec)]

/-- Modelled from the spec: `remove(username) -> bool (removed)` of the
Credential Store — drop the username's entries and report whether anything
was actually removed. -/
def remove_user (cfg : CredStore) (user : String) : Bool × CredStore :=
  (cfg.any (fun p => p.1 == user), cfg.filter (fun p => !(p.1 == user)))

/-- `telemt_username` (state.rs lines 20-22). -/
def telemt_username (uid : Int) : String := "tg_" ++ toString uid

/-- Modelled from the spec: `build_proxy_link` of `crate::link` (not under
src/) — the shareable connection string built from the link parameters and
the secret; only its dependence on both inputs matters here. -/
def build_proxy_link (params sec : String) : String := params ++ sec

/-- State touched by the provisioning workflow: the Ledger, the Credential
Store, and counters observing the Service Controller (restart attempts) and
the warning log. -/
structure WorkflowState where
  ledger : RequestStore
  cfg : CredStore
  restartAttempts : Nat
  warnings : Nat
deriving DecidableEq, Repr

/-- `restart_telemt_service` (shared.rs lines 223-232): always calls
`systemctl restart`; a failed restart is only logged as a warning. -/
def restart_telemt_service (st : WorkflowState) (ok : Bool) : WorkflowState :=
  { st with
      restartAttempts := st.restartAttempts + 1
      warnings := if ok then st.warnings else st.warnings + 1 }

/-- Environment of one workflow run: the generated secret, whether the
credential write succeeds, whether the restart succeeds, whether reading the
link parameters succeeds, and the parameters read. -/
structure WorkflowIO where
  secret : String
  upsertOk : Bool
  restartOk : Bool
  readParamsOk : Bool
  linkParams : String
deriving DecidableEq, Repr

/-- Result of `approve_request_and_build_link`. -/
inductive WorkflowResult where
  | granted (req : RegistrationRequest) (link : String)
  | nonePending
  | failed
deriving DecidableEq, Repr

/-- `approve_request_and_build_link` (shared.rs lines 234-261): look up the
pending request; write the Credential Store (a failure aborts before any
Ledger mutation); commit the Ledger transition via `Db::approve` (None
short-circuits); request a service restart (failure only logged); read the
link parameters and build the proxy link. -/
def approve_request_and_build_link (st : WorkflowState) (io : WorkflowIO)
    (request_id now : Int) : WorkflowResult × WorkflowState :=
  match get_pending_by_id st.ledger request_id with
  | none => (WorkflowResult.nonePending, st)
  | some request =>
    let telemt_user := telemt_username request.tg_user_id
    if !io.upsertOk then (WorkflowResult.failed, st)
    else
      let cfg2 := upsert_user st.cfg telemt_user io.secret
      match approve st.ledger request_id telemt_user io.secret now with
      | (none, led2) =>
        (WorkflowResult.nonePending, { st with ledger := led2, cfg := cfg2 })
      | (some _, led2) =>
        let st2 := restart_telemt_service { st with ledger := led2, cfg := cfg2 }
          io.restartOk
        if !io.readParamsOk then (WorkflowResult.failed, st2)
        else
          (WorkflowResult.granted request (build_proxy_link io.linkParams io.secret),
           st2)

/-- Concrete workflow state for the witnesses: one Pending request and an
empty Credential Store. -/
def wfState0 : WorkflowState :=
  { ledger := [racePendingRow]
    cfg := []
    restartAttempts := 0
    warnings := 0 }

/-- IO with a failing credential write. -/
def ioUpsertFail : WorkflowIO :=
  { secret := "s3cr3t"
    upsertOk := false
    restartOk := true
    readParamsOk := true
    linkParams := "tg://proxy?" }

/-- IO with a failing service restart but working credential write. -/
def ioRestartFail : WorkflowIO :=
  { secret := "s3cr3t"
    upsertOk := true
    restartOk := false
    readParamsOk := true
    linkParams := "tg://proxy?" }

/-! ### Revocation workflow (`perform_hard_ban`, shared.rs lines 447-461) -/

/-- `Db::deactivate_user` (db.rs lines 362-372): `UPDATE registration_requests
SET status = 'deleted' WHERE tg_user_id = ? AND status = 'approved'`; returns
whether any row was affected. -/
def deactivate_user (s : RequestStore) (uid : Int) : Bool × RequestStore :=
  (decide (0 < (s.filter
      (fun r => r.tg_user_id == uid && r.status == "approved")).length),
   s.map (fun r =>
     if r.tg_user_id == uid && r.status == "approved" then
       { r with status := "deleted" }
     else r))

/-- `perform_hard_ban` (shared.rs lines 447-461): remove the credential from
the Credential Store, mark the Ledger row Deleted (only where it is
Approved), restart only if the removal actually changed the Credential
Store, and report found-ness ("удалён" iff either store changed). -/
def perform_hard_ban (st : WorkflowState) (restartOk : Bool) (uid : Int) :
    Bool × WorkflowState :=
  let telemt_user := telemt_username uid
  let rc := remove_user st.cfg telemt_user
  let dc := deactivate_user st.ledger uid
  let st2 := { st with cfg := rc.2, ledger := dc.2 }
  let st3 := if rc.1 then restart_telemt_service st2 restartOk else st2
  (rc.1 || dc.1, st3)

/-- Concrete state for the C8 witness: no credential entry and no Approved
row for identity 300. -/
def banState0 : WorkflowState :=
  { ledger := [racePendingRow]
    cfg := [("tg_100", "oldsec")]
    restartAttempts := 0
    warnings := 0 }

/-! ### `Db::create_invite_token` (db.rs lines 457-510) and `/token create` -/

/-- Smallest `i64`. -/
def i64Min : Int := -(2 ^ 63)

/-- Largest `i64`. -/
def i64Max : Int := 2 ^ 63 - 1

/-- `i64::checked_mul` on the embedded integers. -/
def checked_mul (a b : Int) : Option Int :=
  if i64Min ≤ a * b ∧ a * b ≤ i64Max then some (a * b) else none

/-- `i64::checked_add` on the embedded integers. -/
def checked_add (a b : Int) : Option Int :=
  if i64Min ≤ a + b ∧ a + b ≤ i64Max then some (a + b) else none

/-- The 62 characters of the `Alphanumeric` distribution. -/
def alphanumericChars : List Char :=
  "ABCDEFGHIJKLMNOPQRSTUVWXYZabcdefghijklmnopqrstuvwxyz0123456789".toList

/-- `Db::generate_invite_token` (db.rs lines 213-215): ten characters sampled
from `Alphanumeric`; the random source is embedded as a stream of naturals
consumed at positions base..base+9. -/
def generate_invite_token (rand : Nat → Nat) (base : Nat) : String :=
  String.mk ((List.range 10).map
    (fun j => alphanumericChars.getD (rand (base + j) % 62) 'A'))

/-- The `invite_tokens` table together with its AUTOINCREMENT counter. -/
structure TokenDb where
  rows : TokenStore
  next_id : Int
deriving DecidableEq, Repr

/-- The row written by the INSERT of `create_invite_token`, with the column
defaults `usage_count = 0`, `is_active = 1`, `revoked_at = NULL`. -/
def freshTokenRow (next_id : Int) (tok : String) (now expires_at : Int)
    (auto_approve : Bool) (created_by max_usage : Option Int) : InviteToken :=
  { id := next_id
    token := tok
    created_at := now
    expires_at := expires_at
    auto_approve := auto_approve
    created_by := created_by
    usage_count := 0
    max_usage := max_usage
    is_active := true
    revoked_at := none }

/-- The INSERT of `create_invite_token` (db.rs lines 475-485): `none` is the
UNIQUE(token) violation; otherwise the fresh row is appended. -/
def insertInviteToken (db : TokenDb) (tok : String) (now expires_at : Int)
    (auto_approve : Bool) (created_by max_usage : Option Int) : Option TokenDb :=
  if db.rows.any (fun r => r.token == tok) then none
  else some
    { rows := db.rows ++
        [freshTokenRow db.next_id tok now expires_at auto_approve created_by max_usage]
      next_id := db.next_id + 1 }

/-- The retry loop of `create_invite_token` (db.rs lines 472-507): up to 8
attempts, one candidate token per attempt; a uniqueness violation continues
with the next candidate; after a successful INSERT the row is re-read by
token (a failed re-read would also continue the loop). -/
def createLoop (cand : Nat → String) (now expires_at : Int) (auto_approve : Bool)
    (created_by max_usage : Option Int) :
    List Nat → TokenDb → Option (InviteToken × TokenDb)
  | [], _ => none
  | i :: rest, db =>
    match insertInviteToken db (cand i) now expires_at auto_approve created_by
        max_usage with
    | none => createLoop cand now expires_at auto_approve created_by max_usage rest db
    | some db2 =>
      match findToken db2.rows (cand i) with
      | some row => some (row, db2)
      | none => createLoop cand now expires_at auto_approve created_by max_usage rest db2

/-- `Db::create_invite_token` (db.rs lines 457-510):
`ttl = days.checked_mul(86400)`, `expires_at = now.checked_add(ttl)` (either
failure rejects the request), then the retry loop over 8 generated
candidates. -/
def create_invite_token (db : TokenDb) (cand : Nat → String) (now days : Int)
    (auto_approve : Bool) (max_usage created_by : Option Int) :
    Option (InviteToken × TokenDb) :=
  match checked_mul days 86400 with
  | none => none
  | some ttl =>
    match checked_add now ttl with
    | none => none
    | some expires_at =>
      createLoop cand now expires_at auto_approve created_by max_usage
        (List.range 8) db

/-- The validation of `/token create` (commands/mod.rs lines 424-455): reject
`days < 1`, `days > max_token_days` and disallowed auto-approve before
calling `Db::create_invite_token`. -/
def cmd_token_create (db : TokenDb) (cand : Nat → String)
    (now days max_token_days : Int) (auto_approve allow_auto : Bool)
    (max_usage created_by : Option Int) : Option (InviteToken × TokenDb) :=
  if days < 1 then none
  else if days > max_token_days then none
  else if auto_approve && !allow_auto then none
  else create_invite_token db cand now days auto_approve max_usage created_by

/-- The row produced by the concrete creation in the C9 witness. -/
def witnessTokenRow : InviteToken :=
  freshTokenRow 1 (generate_invite_token (fun n => n) 0) 0 604800 false none none

/-! ### Theorems -/

/-! ### Generic list helpers -/

/-- Pointwise-equal functions map lists equally. -/
theorem map_congr_mem {α β : Type} {f g : α → β} :
    ∀ {l : List α}, (∀ x ∈ l, f x = g x) → l.map f = l.map g
  | [], _ => rfl
  | a :: l, h => by
    simp only [List.map_cons, h a (List.mem_cons_self a l)]
    exact congrArg _ (map_congr_mem fun x hx => h x (List.mem_cons_of_mem a hx))

/-- A map that fixes every element of a list is the identity on it. -/
theorem map_id_mem {α : Type} {f : α → α} :
    ∀ {l : List α}, (∀ x ∈ l, f x = x) → l.map f = l
  | [], _ => rfl
  | a :: l, h => by
    simp only [List.map_cons, h a (List.mem_cons_self a l)]
    exact congrArg _ (map_id_mem fun x hx => h x (List.mem_cons_of_mem a hx))

/-- In a list whose images under `key` are nodup, an element is determined by
its key. -/
theorem nodup_key_eq {α β : Type} (key : α → β) :
    ∀ {l : List α}, (l.map key).Nodup →
      ∀ {r x : α}, r ∈ l → x ∈ l → key x = key r → x = r
  | [], _, _, _, hr, _, _ => absurd hr (List.not_mem_nil _)
  | a :: l, h, r, x, hr, hx, hk => by
    rw [List.map_cons, List.nodup_cons] at h
    rcases List.mem_cons.mp hr with h1 | h1
    · rcases List.mem_cons.mp hx with h2 | h2
      · rw [h1, h2]
      · exfalso
        apply h.1
        have hmem : key x ∈ l.map key := List.mem_map_of_mem key h2
        rw [hk, h1] at hmem
        exact hmem
    · rcases List.mem_cons.mp hx with h2 | h2
      · exfalso
        apply h.1
        have hmem : key r ∈ l.map key := List.mem_map_of_mem key h1
        rw [← hk, h2] at hmem
        exact hmem
      · exact nodup_key_eq key h.2 h1 h2 hk

/-- The first match of `find?` is the unique satisfying element. -/
theorem find?_eq_of_unique {α : Type} {p : α → Bool} :
    ∀ {l : List α} {r : α}, r ∈ l → p r = true → (∀ x ∈ l, p x = true → x = r) →
      l.find? p = some r
  | [], r, hr, _, _ => absurd hr (List.not_mem_nil _)
  | a :: l, r, hr, hp, hu => by
    by_cases ha : p a = true
    · rw [List.find?_cons_of_pos _ ha, hu a (List.mem_cons_self a l) ha]
    · rw [List.find?_cons_of_neg _ (by simpa using ha)]
      rcases List.mem_cons.mp hr with h1 | h1
      · rw [h1] at hp
        exact absurd hp ha
      · exact find?_eq_of_unique h1 hp fun x hx => hu x (List.mem_cons_of_mem a hx)

/-- `find?` commutes with a map that does not change the predicate. -/
theorem find?_map_of_pred {α : Type} {p : α → Bool} {f : α → α}
    (hf : ∀ x, p (f x) = p x) :
    ∀ (l : List α), (l.map f).find? p = (l.find? p).map f
  | [] => rfl
  | a :: l => by
    by_cases ha : p a = true
    · rw [List.map_cons, List.find?_cons_of_pos _ (by rw [hf]; exact ha),
        List.find?_cons_of_pos _ ha]
      rfl
    · rw [List.map_cons, List.find?_cons_of_neg _ (by rw [hf]; simpa using ha),
        List.find?_cons_of_neg _ (by simpa using ha)]
      exact find?_map_of_pred hf l

/-- A list containing a satisfying element filters to positive length. -/
theorem filter_length_pos {α : Type} {p : α → Bool} {l : List α} {r : α}
    (hr : r ∈ l) (hp : p r = true) : 0 < (l.filter p).length :=
  List.length_pos.mpr (List.ne_nil_of_mem (List.mem_filter.mpr ⟨hr, hp⟩))

/-- A list with no satisfying element filters to length zero. -/
theorem filter_length_zero {α : Type} {p : α → Bool} :
    ∀ {l : List α}, (∀ x ∈ l, p x = false) → (l.filter p).length = 0
  | [], _ => rfl
  | a :: l, h => by
    rw [List.filter_cons_of_neg (by simp [h a (List.mem_cons_self a l)])]
    exact filter_length_zero fun x hx => h x (List.mem_cons_of_mem a hx)

/-- The SQL guard agrees with the spec's usable predicate. -/
theorem consumeGuard_iff_usable {now : Int} {r : InviteToken} :
    consumeGuard now r = true ↔ tokenUsable now r := by
  unfold consumeGuard tokenUsable
  cases hm : r.max_usage with
  | none => simp [hm]
  | some m => simp [hm, and_assoc]

/-- Rows with the consumed token are unique in a wellformed store. -/
theorem token_row_unique {s : TokenStore} {r : InviteToken}
    (hU : tokensUnique s) (hr : r ∈ s) :
    ∀ x ∈ s, (x.token == r.token) = true → x = r := fun x hx hxt =>
  nodup_key_eq (fun t => t.token) hU hr hx (by simpa using hxt)

/-- Consuming a usable token succeeds, returns the post-increment row with its
mode, and bumps exactly that row's usage count in the store. -/
theorem consume_ok_char {s : TokenStore} {r : InviteToken} {now : Int}
    (hU : tokensUnique s) (hr : r ∈ s) (hg : consumeGuard now r = true) :
    consume_invite_token s r.token now =
      (Except.ok (consumedOf { r with usage_count := r.usage_count + 1 }),
       s.map (bumpIfTok r.token)) := by
  have huniq := token_row_unique hU hr
  have hp : (r.token == r.token && consumeGuard now r) = true := by simp [hg]
  have hpos : 0 < (s.filter fun x => x.token == r.token && consumeGuard now x).length :=
    filter_length_pos hr hp
  have hmapeq :
      (s.map fun x =>
        if x.token == r.token && consumeGuard now x then
          { x with usage_count := x.usage_count + 1 }
        else x) = s.map (bumpIfTok r.token) := by
    apply map_congr_mem
    intro x hx
    by_cases ht : (x.token == r.token) = true
    · rw [huniq x hx ht]
      simp [bumpIfTok, hg]
    · have ht2 : (x.token == r.token) = false := by simpa using ht
      simp [bumpIfTok, ht2]
  have htokpres : ∀ x : InviteToken,
      ((bumpIfTok r.token x).token == r.token) = (x.token == r.token) := by
    intro x
    unfold bumpIfTok
    by_cases ht : (x.token == r.token) = true
    · rw [if_pos ht]
    · rw [if_neg ht]
  have hfindbase : s.find? (fun x => x.token == r.token) = some r :=
    find?_eq_of_unique hr (by simp) (fun x hx hxt => huniq x hx hxt)
  have hfind : findToken (s.map (bumpIfTok r.token)) r.token
      = some { r with usage_count := r.usage_count + 1 } := by
    unfold findToken
    rw [find?_map_of_pred htokpres s, hfindbase]
    simp [bumpIfTok]
  have hne : (s.filter fun x => x.token == r.token && consumeGuard now x).length ≠ 0 :=
    Nat.pos_iff_ne_zero.mp hpos
  unfold consume_invite_token updateConsume
  simp only [hmapeq, hne, if_false, hfind]

/-- Consuming an unusable (but present) token affects zero rows, leaves the
store unchanged, and reports the classified reason. -/
theorem consume_fail_char {s : TokenStore} {r : InviteToken} {now : Int}
    (hU : tokensUnique s) (hr : r ∈ s) (hg : consumeGuard now r = false) :
    consume_invite_token s r.token now =
      (Except.error (classifyUnusable now r), s) := by
  have huniq := token_row_unique hU hr
  have hall : ∀ x ∈ s, (x.token == r.token && consumeGuard now x) = false := by
    intro x hx
    by_cases ht : (x.token == r.token) = true
    · rw [huniq x hx ht]
      simp [hg]
    · have ht2 : (x.token == r.token) = false := by simpa using ht
      simp [ht2]
  have hzero : (s.filter fun x => x.token == r.token && consumeGuard now x).length = 0 :=
    filter_length_zero hall
  have hmapid :
      (s.map fun x =>
        if x.token == r.token && consumeGuard now x then
          { x with usage_count := x.usage_count + 1 }
        else x) = s := by
    apply map_id_mem
    intro x hx
    rw [hall x hx]
    rfl
  have hfind : findToken s r.token = some r :=
    find?_eq_of_unique hr (by simp) (fun x hx hxt => huniq x hx hxt)
  unfold consume_invite_token updateConsume
  simp only [hmapid, hzero, if_true, hfind]

/-- Revoking an active token reports `true` and clears `is_active` on exactly
that row. -/
theorem revoke_ok_char {s : TokenStore} {r : InviteToken} {now : Int}
    (hU : tokensUnique s) (hr : r ∈ s) (ha : r.is_active = true) :
    revoke_invite_token s r.token now = (true, s.map (revokeIfTok now r.token)) := by
  have huniq := token_row_unique hU hr
  have hp : (r.token == r.token && r.is_active) = true := by simp [ha]
  have hpos : 0 < (s.filter fun x => x.token == r.token && x.is_active).length :=
    filter_length_pos hr hp
  have hmapeq :
      (s.map fun x =>
        if x.token == r.token && x.is_active then
          { x with is_active := false, revoked_at := some now }
        else x) = s.map (revokeIfTok now r.token) := by
    apply map_congr_mem
    intro x hx
    by_cases ht : (x.token == r.token) = true
    · rw [huniq x hx ht]
      simp [revokeIfTok, ha]
    · have ht2 : (x.token == r.token) = false := by simpa using ht
      simp [revokeIfTok, ht2]
  unfold revoke_invite_token
  rw [hmapeq]
  simp [hpos]

/-- Mapping a token-preserving function preserves the UNIQUE constraint. -/
theorem tokensUnique_map {f : InviteToken → InviteToken}
    (hf : ∀ x, (f x).token = x.token) {s : TokenStore} (hU : tokensUnique s) :
    tokensUnique (s.map f) := by
  unfold tokensUnique at hU ⊢
  rw [List.map_map]
  have heq : ((fun r : InviteToken => r.token) ∘ f) = fun r : InviteToken => r.token :=
    funext fun x => hf x
  rw [heq]
  exact hU

/-- `bumpIfTok` preserves the token string. -/
theorem bumpIfTok_token (tok : String) (x : InviteToken) :
    (bumpIfTok tok x).token = x.token := by
  unfold bumpIfTok
  by_cases ht : (x.token == tok) = true
  · rw [if_pos ht]
  · rw [if_neg ht]

/-- `revokeIfTok` preserves the token string. -/
theorem revokeIfTok_token (now : Int) (tok : String) (x : InviteToken) :
    (revokeIfTok now tok x).token = x.token := by
  unfold revokeIfTok
  by_cases ht : (x.token == tok) = true
  · rw [if_pos ht]
  · rw [if_neg ht]

/-- C1: for a stored token row, `consume` succeeds iff the row satisfies the
usable predicate (active, strictly unexpired, under cap); on success the
usage count is bumped by exactly one and the post-increment row (with its
mode) is returned; on failure the store is unchanged and the error is the
classified reason; at `now = expiresAt` an active under-cap token fails with
`Expired` and is not incremented. -/
theorem consume_spec_C1 {s : TokenStore} {r : InviteToken} {now : Int}
    (hU : tokensUnique s) (hr : r ∈ s) :
    ((∃ c s2, consume_invite_token s r.token now = (Except.ok c, s2)) ↔
        tokenUsable now r) ∧
    (tokenUsable now r →
      consume_invite_token s r.token now =
        (Except.ok
          { id := r.id
            token := r.token
            mode := if r.auto_approve then TokenMode.AutoApprove else TokenMode.Manual
            expires_at := r.expires_at
            created_by := r.created_by
            usage_count := r.usage_count + 1
            max_usage := r.max_usage },
         s.map (bumpIfTok r.token))) ∧
    (¬ tokenUsable now r →
      consume_invite_token s r.token now =
        (Except.error (classifyUnusable now r), s)) ∧
    (now = r.expires_at → r.is_active = true → (∀ m ∈ r.max_usage, r.usage_count < m) →
      consume_invite_token s r.token now = (Except.error TokenConsumeError.Expired, s)) := by
  have hok : tokenUsable now r →
      consume_invite_token s r.token now =
        (Except.ok
          { id := r.id
            token := r.token
            mode := if r.auto_approve then TokenMode.AutoApprove else TokenMode.Manual
            expires_at := r.expires_at
            created_by := r.created_by
            usage_count := r.usage_count + 1
            max_usage := r.max_usage },
         s.map (bumpIfTok r.token)) := by
    intro h
    rw [consume_ok_char hU hr (consumeGuard_iff_usable.mpr h)]
    rfl
  have hfail : ¬ tokenUsable now r →
      consume_invite_token s r.token now =
        (Except.error (classifyUnusable now r), s) := by
    intro h
    apply consume_fail_char hU hr
    cases hgb : consumeGuard now r with
    | false => rfl
    | true => exact absurd (consumeGuard_iff_usable.mp hgb) h
  refine ⟨⟨?_, fun h => ⟨_, _, hok h⟩⟩, hok, hfail, ?_⟩
  · rintro ⟨c, s2, hc⟩
    by_contra h
    rw [hfail h] at hc
    simp at hc
  · intro hnow ha hcap
    have hnotus : ¬ tokenUsable now r := by
      rintro ⟨-, hlt, -⟩
      rw [hnow] at hlt
      exact lt_irrefl _ hlt
    rw [hfail hnotus]
    have hclass : classifyUnusable now r = TokenConsumeError.Expired := by
      unfold classifyUnusable
      rw [ha]
      rw [if_neg (by simp)]
      rw [if_pos (by rw [hnow])]
    rw [hclass]

/-- Witness for C1 at a concrete store and time. -/
theorem consume_spec_C1_witness :
    ((∃ c s2, consume_invite_token [sampleToken] sampleToken.token 5 = (Except.ok c, s2)) ↔
        tokenUsable 5 sampleToken) ∧
    (tokenUsable 5 sampleToken →
      consume_invite_token [sampleToken] sampleToken.token 5 =
        (Except.ok
          { id := sampleToken.id
            token := sampleToken.token
            mode := if sampleToken.auto_approve then TokenMode.AutoApprove else TokenMode.Manual
            expires_at := sampleToken.expires_at
            created_by := sampleToken.created_by
            usage_count := sampleToken.usage_count + 1
            max_usage := sampleToken.max_usage },
         [sampleToken].map (bumpIfTok sampleToken.token))) ∧
    (¬ tokenUsable 5 sampleToken →
      consume_invite_token [sampleToken] sampleToken.token 5 =
        (Except.error (classifyUnusable 5 sampleToken), [sampleToken])) ∧
    ((5 : Int) = sampleToken.expires_at → sampleToken.is_active = true →
      (∀ m ∈ sampleToken.max_usage, sampleToken.usage_count < m) →
      consume_invite_token [sampleToken] sampleToken.token 5 =
        (Except.error TokenConsumeError.Expired, [sampleToken])) :=
  consume_spec_C1 (by decide) (by simp)

/-- Counting lemma: on an active, unexpired token with cap N and current usage
u, M sequential consume attempts yield `min M (N - u)` successes and
`M - min M (N - u)` UsageLimitReached failures. -/
theorem runConsume_count {tok : String} {now : Int} {N : Nat} :
    ∀ (M u : Nat) (s : TokenStore) (r : InviteToken),
      tokensUnique s → r ∈ s → r.token = tok → r.is_active = true →
      now < r.expires_at → r.max_usage = some ((N : Nat) : Int) →
      r.usage_count = ((u : Nat) : Int) →
      (runConsume tok now M s).1 = min M (N - u) ∧
      (runConsume tok now M s).2.1 = M - min M (N - u)
  | 0, u, s, r, _, _, _, _, _, _, _ => by
    have h0 : runConsume tok now 0 s = (0, 0, s) := by simp [runConsume]
    rw [h0]
    exact ⟨by show (0 : Nat) = min 0 (N - u); omega,
           by show (0 : Nat) = 0 - min 0 (N - u); omega⟩
  | M + 1, u, s, r, hU, hr, htok, ha, he, hm, hu => by
    subst htok
    by_cases hlt : u < N
    · have hg : consumeGuard now r = true := by
        apply consumeGuard_iff_usable.mpr
        refine ⟨ha, he, ?_⟩
        intro m hm2
        rw [hm] at hm2
        rw [Option.mem_def, Option.some_inj] at hm2
        rw [hu, ← hm2]
        exact_mod_cast hlt
      have hstep := consume_ok_char hU hr hg
      have hU2 : tokensUnique (s.map (bumpIfTok r.token)) :=
        tokensUnique_map (bumpIfTok_token r.token) hU
      have hmem2 : ({ r with usage_count := r.usage_count + 1 } : InviteToken) ∈
          s.map (bumpIfTok r.token) := by
        have hmem := List.mem_map_of_mem (bumpIfTok r.token) hr
        rwa [show bumpIfTok r.token r = { r with usage_count := r.usage_count + 1 } from by
          unfold bumpIfTok
          rw [if_pos (by simp)]] at hmem
      have ih := runConsume_count M (u + 1) (s.map (bumpIfTok r.token))
        { r with usage_count := r.usage_count + 1 }
        hU2 hmem2 rfl ha he hm
        (show r.usage_count + 1 = (((u + 1 : Nat)) : Int) by rw [hu]; push_cast; ring)
      rw [show runConsume r.token now (M + 1) s =
        (let step := consume_invite_token s r.token now
         let rest := runConsume r.token now M step.2
         match step.1 with
         | Except.ok _ => (rest.1 + 1, rest.2.1, rest.2.2)
         | Except.error e =>
             (rest.1,
              (if e = TokenConsumeError.UsageLimitReached then rest.2.1 + 1 else rest.2.1),
              rest.2.2)) from rfl]
      rw [hstep]
      simp only []
      refine ⟨?_, ?_⟩
      · rw [show (runConsume r.token now M (s.map (bumpIfTok r.token))).1 = min M (N - (u+1)) from ih.1]
        omega
      · rw [show (runConsume r.token now M (s.map (bumpIfTok r.token))).2.1 = M - min M (N - (u+1)) from ih.2]
        omega
    · have hg : consumeGuard now r = false := by
        cases hgb : consumeGuard now r with
        | false => rfl
        | true =>
          exfalso
          rcases consumeGuard_iff_usable.mp hgb with ⟨-, -, hcap⟩
          have hNN := hcap ((N : Nat) : Int) (by simp [hm])
          rw [hu] at hNN
          exact hlt (by exact_mod_cast hNN)
      have hclass : classifyUnusable now r = TokenConsumeError.UsageLimitReached := by
        unfold classifyUnusable
        rw [if_neg (by simp [ha])]
        rw [if_neg (by omega)]
        rw [if_pos]
        rw [hm, hu]
        simp only [Option.any_some, decide_eq_true_eq]
        exact_mod_cast Nat.le_of_not_lt hlt
      have hstep := consume_fail_char hU hr hg
      have ih := runConsume_count M u s r hU hr rfl ha he hm hu
      rw [show runConsume r.token now (M + 1) s =
        (let step := consume_invite_token s r.token now
         let rest := runConsume r.token now M step.2
         match step.1 with
         | Except.ok _ => (rest.1 + 1, rest.2.1, rest.2.2)
         | Except.error e =>
             (rest.1,
              (if e = TokenConsumeError.UsageLimitReached then rest.2.1 + 1 else rest.2.1),
              rest.2.2)) from rfl]
      rw [hstep, hclass]
      simp only []
      refine ⟨?_, ?_⟩
      · rw [show (runConsume r.token now M s).1 = min M (N - u) from ih.1]
        omega
      · simp only [if_true]
        rw [show (runConsume r.token now M s).2.1 = M - min M (N - u) from ih.2]
        omega

/-- Packaged success step: consuming a usable token, with the store facts
needed to chain further operations. -/
theorem consume_ok_fields {s : TokenStore} {r : InviteToken} {now : Int} {tok : String}
    (htok : r.token = tok) (hU : tokensUnique s) (hr : r ∈ s)
    (ha : r.is_active = true) (he : now < r.expires_at)
    (hcap : ∀ m ∈ r.max_usage, r.usage_count < m) :
    consume_invite_token s tok now =
      (Except.ok (consumedOf { r with usage_count := r.usage_count + 1 }),
       s.map (bumpIfTok tok)) ∧
    tokensUnique (s.map (bumpIfTok tok)) ∧
    ({ r with usage_count := r.usage_count + 1 } : InviteToken) ∈ s.map (bumpIfTok tok) := by
  subst htok
  refine ⟨consume_ok_char hU hr (consumeGuard_iff_usable.mpr ⟨ha, he, hcap⟩),
    tokensUnique_map (bumpIfTok_token r.token) hU, ?_⟩
  have hmem := List.mem_map_of_mem (bumpIfTok r.token) hr
  rwa [show bumpIfTok r.token r = { r with usage_count := r.usage_count + 1 } from by
    unfold bumpIfTok
    rw [if_pos (by simp)]] at hmem

/-- Packaged failure step. -/
theorem consume_fail_fields {s : TokenStore} {r : InviteToken} {now : Int} {tok : String}
    (htok : r.token = tok) (hU : tokensUnique s) (hr : r ∈ s)
    (hg : consumeGuard now r = false) :
    consume_invite_token s tok now = (Except.error (classifyUnusable now r), s) := by
  subst htok
  exact consume_fail_char hU hr hg

/-- Packaged revocation step. -/
theorem revoke_ok_fields {s : TokenStore} {r : InviteToken} {now : Int} {tok : String}
    (htok : r.token = tok) (hU : tokensUnique s) (hr : r ∈ s)
    (ha : r.is_active = true) :
    revoke_invite_token s tok now = (true, s.map (revokeIfTok now tok)) ∧
    tokensUnique (s.map (revokeIfTok now tok)) ∧
    ({ r with is_active := false, revoked_at := some now } : InviteToken) ∈
      s.map (revokeIfTok now tok) := by
  subst htok
  refine ⟨revoke_ok_char hU hr ha,
    tokensUnique_map (revokeIfTok_token now r.token) hU, ?_⟩
  have hmem := List.mem_map_of_mem (revokeIfTok now r.token) hr
  rwa [show revokeIfTok now r.token r =
      { r with is_active := false, revoked_at := some now } from by
    unfold revokeIfTok
    rw [if_pos (by simp)]] at hmem

/-- An inactive row fails the consume guard. -/
theorem guard_false_of_inactive {now : Int} {r : InviteToken}
    (ha : r.is_active = false) : consumeGuard now r = false := by
  unfold consumeGuard
  rw [ha]
  rfl

/-- A row at or over its cap fails the consume guard. -/
theorem guard_false_of_cap {now : Int} {r : InviteToken} {m : Int}
    (hm : r.max_usage = some m) (hcap : m ≤ r.usage_count) :
    consumeGuard now r = false := by
  unfold consumeGuard
  rw [hm]
  show (r.is_active && decide (now < r.expires_at) && decide (r.usage_count < m)) = false
  have hd : decide (r.usage_count < m) = false := by
    simp only [decide_eq_false_iff_not]
    omega
  rw [hd, Bool.and_false]

/-- The classification of a capped-out active unexpired row. -/
theorem classify_usage_limit {now : Int} {r : InviteToken} {m : Int}
    (ha : r.is_active = true) (he : now < r.expires_at)
    (hm : r.max_usage = some m) (hcap : m ≤ r.usage_count) :
    classifyUnusable now r = TokenConsumeError.UsageLimitReached := by
  unfold classifyUnusable
  rw [if_neg (by simp [ha]), if_neg (by omega), if_pos (by simp [hm]; omega)]

/-- The classification of an inactive row. -/
theorem classify_revoked {now : Int} {r : InviteToken}
    (ha : r.is_active = false) :
    classifyUnusable now r = TokenConsumeError.Revoked := by
  unfold classifyUnusable
  rw [if_pos (by simp [ha])]

/-- C3: for a fresh token with cap N, any M > N consume attempts (each of
which mutates the store only through the single atomic predicate-guarded
UPDATE, so any interleaving is a sequential order of these steps) produce
exactly N successes and M - N UsageLimitReached failures, and no number of
attempts ever produces more than N successes. -/
theorem consume_capacity_C3 {s : TokenStore} {r : InviteToken} {now : Int}
    {N M : Nat} (hU : tokensUnique s) (hr : r ∈ s) (ha : r.is_active = true)
    (he : now < r.expires_at) (hm : r.max_usage = some ((N : Nat) : Int))
    (hu : r.usage_count = 0) (hMN : N < M) :
    (runConsume r.token now M s).1 = N ∧
    (runConsume r.token now M s).2.1 = M - N ∧
    ∀ K : Nat, (runConsume r.token now K s).1 ≤ N := by
  have hu0 : r.usage_count = ((0 : Nat) : Int) := by rw [hu]; rfl
  have h := runConsume_count M 0 s r hU hr rfl ha he hm hu0
  refine ⟨?_, ?_, ?_⟩
  · rw [h.1]
    omega
  · rw [h.2]
    omega
  · intro K
    have hK := runConsume_count K 0 s r hU hr rfl ha he hm hu0
    rw [hK.1]
    omega

/-- Witness for C3: a singleton store with cap 3 and 5 attempts. -/
theorem consume_capacity_C3_witness :
    (runConsume sampleToken.token 5 5 [sampleToken]).1 = 3 ∧
    (runConsume sampleToken.token 5 5 [sampleToken]).2.1 = 5 - 3 ∧
    ∀ K : Nat, (runConsume sampleToken.token 5 K [sampleToken]).1 ≤ 3 :=
  consume_capacity_C3 (N := 3) (M := 5) (by decide) (by simp) (by decide)
    (by decide) (by decide) (by decide) (by decide)

/-- C2: a fresh token with cap 3 (active, unexpired) is usable immediately;
three sequential consumes succeed, the fourth fails with UsageLimitReached
and leaves the store unchanged; revoking then returns true and a subsequent
consume fails with Revoked; and revoking while usage slots remain also
returns true with a subsequent consume failing Revoked. -/
theorem token_lifecycle_C2 {s : TokenStore} {r : InviteToken} {now : Int}
    (hU : tokensUnique s) (hr : r ∈ s) (ha : r.is_active = true)
    (he : now < r.expires_at) (hm : r.max_usage = some 3)
    (hu : r.usage_count = 0) :
    tokenUsable now r ∧
    (∃ c1 c2 c3 s1 s2 s3,
      consume_invite_token s r.token now = (Except.ok c1, s1) ∧
      consume_invite_token s1 r.token now = (Except.ok c2, s2) ∧
      consume_invite_token s2 r.token now = (Except.ok c3, s3) ∧
      c3.usage_count = 3 ∧ c3.max_usage = some 3 ∧
      (consume_invite_token s3 r.token now).1 =
          Except.error TokenConsumeError.UsageLimitReached ∧
      (consume_invite_token s3 r.token now).2 = s3 ∧
      (revoke_invite_token s3 r.token now).1 = true ∧
      (consume_invite_token (revoke_invite_token s3 r.token now).2 r.token now).1 =
          Except.error TokenConsumeError.Revoked) ∧
    ((revoke_invite_token s r.token now).1 = true ∧
      (consume_invite_token (revoke_invite_token s r.token now).2 r.token now).1 =
          Except.error TokenConsumeError.Revoked) := by
  have husable : tokenUsable now r := by
    refine ⟨ha, he, ?_⟩
    intro m hm2
    rw [hm, Option.mem_def, Option.some_inj] at hm2
    rw [hu, ← hm2]
    norm_num
  obtain ⟨hc1, hU1, hmem1⟩ := consume_ok_fields rfl hU hr ha he husable.2.2
  obtain ⟨hc2, hU2, hmem2⟩ :=
    consume_ok_fields (r := { r with usage_count := r.usage_count + 1 })
      rfl hU1 hmem1 ha he
      (by
        intro m hm2
        have hm3 : m ∈ r.max_usage := hm2
        rw [hm, Option.mem_def, Option.some_inj] at hm3
        show r.usage_count + 1 < m
        omega)
  obtain ⟨hc3, hU3, hmem3⟩ :=
    consume_ok_fields
      (r := { r with usage_count := r.usage_count + 1 + 1 })
      rfl hU2 hmem2 ha he
      (by
        intro m hm2
        have hm3 : m ∈ r.max_usage := hm2
        rw [hm, Option.mem_def, Option.some_inj] at hm3
        show r.usage_count + 1 + 1 < m
        omega)
  have hg4 : consumeGuard now ({ r with usage_count := r.usage_count + 1 + 1 + 1 } : InviteToken) = false :=
    guard_false_of_cap (m := 3) hm (by show (3 : Int) ≤ r.usage_count + 1 + 1 + 1; omega)
  have hc4 := consume_fail_fields
    (r := { r with usage_count := r.usage_count + 1 + 1 + 1 }) rfl hU3 hmem3 hg4
  have hclass4 : classifyUnusable now
      ({ r with usage_count := r.usage_count + 1 + 1 + 1 } : InviteToken) =
      TokenConsumeError.UsageLimitReached :=
    classify_usage_limit (m := 3) ha he hm
      (by show (3 : Int) ≤ r.usage_count + 1 + 1 + 1; omega)
  obtain ⟨hrv, hU4, hmem4⟩ := revoke_ok_fields
    (r := { r with usage_count := r.usage_count + 1 + 1 + 1 }) rfl hU3 hmem3 ha
  have hg5 : consumeGuard now
      ({ { r with usage_count := r.usage_count + 1 + 1 + 1 } with
          is_active := false, revoked_at := some now } : InviteToken) = false :=
    guard_false_of_inactive rfl
  have hc5 := consume_fail_fields
    (r := { { r with usage_count := r.usage_count + 1 + 1 + 1 } with
        is_active := false, revoked_at := some now }) rfl hU4 hmem4 hg5
  obtain ⟨hrv0, hU5, hmem5⟩ := revoke_ok_fields (r := r) rfl hU hr ha
  have hg6 : consumeGuard now
      ({ r with is_active := false, revoked_at := some now } : InviteToken) = false :=
    guard_false_of_inactive rfl
  have hc6 := consume_fail_fields
    (r := { r with is_active := false, revoked_at := some now }) rfl hU5 hmem5 hg6
  refine ⟨husable, ⟨_, _, _, _, _, _, hc1, hc2, hc3,
    (by show r.usage_count + 1 + 1 + 1 = (3 : Int); omega), hm,
    ?_, ?_, ?_, ?_⟩, ?_, ?_⟩
  · rw [hc4, hclass4]
  · rw [hc4]
  · rw [hrv]
  · rw [hrv, hc5, classify_revoked rfl]
  · rw [hrv0]
  · rw [hrv0, hc6, classify_revoked rfl]

/-- Witness for C2 at a concrete store and time. -/
theorem token_lifecycle_C2_witness :
    tokenUsable 5 sampleToken ∧
    (∃ c1 c2 c3 s1 s2 s3,
      consume_invite_token [sampleToken] sampleToken.token 5 = (Except.ok c1, s1) ∧
      consume_invite_token s1 sampleToken.token 5 = (Except.ok c2, s2) ∧
      consume_invite_token s2 sampleToken.token 5 = (Except.ok c3, s3) ∧
      c3.usage_count = 3 ∧ c3.max_usage = some 3 ∧
      (consume_invite_token s3 sampleToken.token 5).1 =
          Except.error TokenConsumeError.UsageLimitReached ∧
      (consume_invite_token s3 sampleToken.token 5).2 = s3 ∧
      (revoke_invite_token s3 sampleToken.token 5).1 = true ∧
      (consume_invite_token (revoke_invite_token s3 sampleToken.token 5).2
          sampleToken.token 5).1 = Except.error TokenConsumeError.Revoked) ∧
    ((revoke_invite_token [sampleToken] sampleToken.token 5).1 = true ∧
      (consume_invite_token
          (revoke_invite_token [sampleToken] sampleToken.token 5).2
          sampleToken.token 5).1 = Except.error TokenConsumeError.Revoked) :=
  token_lifecycle_C2 (by decide) (by simp) (by decide) (by decide) (by decide)
    (by decide)

/-- C4: counterexample.  In the select-select-update-update interleaving of
two concurrent `approve` calls on the same Pending id, both callers observe
the Pending row and both report success (returning the prior record), so it
is false that exactly one succeeds while the other observes the
"not found or already processed" no-op: the guard is a read-then-write, not
a database-level conditional update. -/
theorem approve_race_C4 :
    (approveRace [racePendingRow] 1 "tg_100" "secretA" "tg_100" "secretB" 50).1 =
        some racePendingRow ∧
    (approveRace [racePendingRow] 1 "tg_100" "secretA" "tg_100" "secretB" 50).2.1 =
        some racePendingRow := by
  constructor <;> rfl

/-- Rows are determined by their id in a wellformed request store. -/
theorem request_id_unique {s : RequestStore} {r : RegistrationRequest}
    (hU : requestIdsUnique s) (hr : r ∈ s) :
    ∀ x ∈ s, (x.id == r.id) = true → x = r := fun x hx hxt =>
  nodup_key_eq (fun t => t.id) hU hr hx (by simpa using hxt)

/-- The pending-by-id SELECT finds the unique pending row with that id. -/
theorem get_pending_by_id_some {s : RequestStore} {r : RegistrationRequest}
    (hU : requestIdsUnique s) (hr : r ∈ s) (hp : r.status = "pending") :
    get_pending_by_id s r.id = some r := by
  apply find?_eq_of_unique hr (by simp [hp])
  intro x hx hxc
  rw [Bool.and_eq_true] at hxc
  exact request_id_unique hU hr x hx hxc.1

/-- The pending-by-id SELECT finds nothing when no pending row has that id. -/
theorem get_pending_by_id_none {s : RequestStore} {id : Int}
    (h : ∀ x ∈ s, x.id = id → x.status ≠ "pending") :
    get_pending_by_id s id = none := by
  apply List.find?_eq_none.mpr
  intro x hx
  simp only [Bool.and_eq_true, beq_iff_eq, not_and]
  intro hid
  exact fun hst => h x hx hid hst

/-- C5: on a Pending row, `approve` stores the credential pair, stamps
`resolved_at`, flips the status to Approved and returns the prior record,
touching no other row; when no Pending row has the id it returns None and
mutates nothing; `reject` behaves symmetrically. -/
theorem approve_reject_C5 {s : RequestStore} {id : Int} {user sec : String}
    {now : Int} (hU : requestIdsUnique s) :
    (∀ r ∈ s, r.id = id → r.status = "pending" →
      approve s id user sec now = (some r, approveUpdate s id user sec now) ∧
      ({ r with
          status := "approved"
          telemt_username := some user
          secret := some sec
          resolved_at := some now } : RegistrationRequest) ∈
        approveUpdate s id user sec now ∧
      (∀ x ∈ s, x.id ≠ id → x ∈ approveUpdate s id user sec now) ∧
      (approveUpdate s id user sec now).length = s.length) ∧
    ((∀ r ∈ s, r.id = id → r.status ≠ "pending") →
      approve s id user sec now = (none, s)) ∧
    (∀ r ∈ s, r.id = id → r.status = "pending" →
      reject s id now = (some r, rejectUpdate s id now) ∧
      ({ r with status := "rejected", resolved_at := some now } :
          RegistrationRequest) ∈ rejectUpdate s id now ∧
      (∀ x ∈ s, x.id ≠ id → x ∈ rejectUpdate s id now) ∧
      (rejectUpdate s id now).length = s.length) ∧
    ((∀ r ∈ s, r.id = id → r.status ≠ "pending") →
      reject s id now = (none, s)) := by
  refine ⟨?_, ?_, ?_, ?_⟩
  · intro r hr hid hp
    subst hid
    have hsel := get_pending_by_id_some hU hr hp
    refine ⟨?_, ?_, ?_, List.length_map s _⟩
    · unfold approve
      rw [hsel]
    · unfold approveUpdate
      apply List.mem_map.mpr
      refine ⟨r, hr, ?_⟩
      simp
    · intro x hx hne
      unfold approveUpdate
      apply List.mem_map.mpr
      refine ⟨x, hx, ?_⟩
      simp [hne]
  · intro h
    unfold approve
    rw [get_pending_by_id_none h]
  · intro r hr hid hp
    subst hid
    have hsel := get_pending_by_id_some hU hr hp
    refine ⟨?_, ?_, ?_, List.length_map s _⟩
    · unfold reject
      rw [hsel]
    · unfold rejectUpdate
      apply List.mem_map.mpr
      refine ⟨r, hr, ?_⟩
      simp
    · intro x hx hne
      unfold rejectUpdate
      apply List.mem_map.mpr
      refine ⟨x, hx, ?_⟩
      simp [hne]
  · intro h
    unfold reject
    rw [get_pending_by_id_none h]

/-- Witness for C5 on a concrete store. -/
theorem approve_reject_C5_witness :
    (∀ r ∈ [racePendingRow], r.id = 1 → r.status = "pending" →
      approve [racePendingRow] 1 "tg_100" "sec1" 50 =
        (some r, approveUpdate [racePendingRow] 1 "tg_100" "sec1" 50) ∧
      ({ r with
          status := "approved"
          telemt_username := some "tg_100"
          secret := some "sec1"
          resolved_at := some 50 } : RegistrationRequest) ∈
        approveUpdate [racePendingRow] 1 "tg_100" "sec1" 50 ∧
      (∀ x ∈ [racePendingRow], x.id ≠ 1 →
        x ∈ approveUpdate [racePendingRow] 1 "tg_100" "sec1" 50) ∧
      (approveUpdate [racePendingRow] 1 "tg_100" "sec1" 50).length =
        [racePendingRow].length) ∧
    ((∀ r ∈ [racePendingRow], r.id = 1 → r.status ≠ "pending") →
      approve [racePendingRow] 1 "tg_100" "sec1" 50 = (none, [racePendingRow])) ∧
    (∀ r ∈ [racePendingRow], r.id = 1 → r.status = "pending" →
      reject [racePendingRow] 1 50 = (some r, rejectUpdate [racePendingRow] 1 50) ∧
      ({ r with status := "rejected", resolved_at := some 50 } :
          RegistrationRequest) ∈ rejectUpdate [racePendingRow] 1 50 ∧
      (∀ x ∈ [racePendingRow], x.id ≠ 1 → x ∈ rejectUpdate [racePendingRow] 1 50) ∧
      (rejectUpdate [racePendingRow] 1 50).length = [racePendingRow].length) ∧
    ((∀ r ∈ [racePendingRow], r.id = 1 → r.status ≠ "pending") →
      reject [racePendingRow] 1 50 = (none, [racePendingRow])) :=
  approve_reject_C5 (by decide)

/-- Mapping a key-preserving function preserves key nodup-ness. -/
theorem nodup_map_preserved {α β : Type} {key : α → β} {f : α → α}
    (hf : ∀ x, key (f x) = key x) {l : List α}
    (h : (l.map key).Nodup) : ((l.map f).map key).Nodup := by
  rw [List.map_map]
  have heq : (key ∘ f) = key := funext hf
  rw [heq]
  exact h

/-- `find?` skips a block in which nothing satisfies the predicate. -/
theorem find?_append_of_none {α : Type} {p : α → Bool} :
    ∀ {l1 : List α} (l2 : List α), (∀ x ∈ l1, p x = false) →
      (l1 ++ l2).find? p = l2.find? p
  | [], l2, _ => rfl
  | a :: l1, l2, h => by
    rw [List.cons_append,
      List.find?_cons_of_neg _ (by simp [h a (List.mem_cons_self a l1)])]
    exact find?_append_of_none l2 fun x hx => h x (List.mem_cons_of_mem a hx)

/-- Rows are determined by their identity in a wellformed request store. -/
theorem tg_row_unique {s : RequestStore} {r : RegistrationRequest}
    (hU : tgUsersUnique s) (hr : r ∈ s) :
    ∀ x ∈ s, (x.tg_user_id == r.tg_user_id) = true → x = r := fun x hx hxt =>
  nodup_key_eq (fun t => t.tg_user_id) hU hr hx (by simpa using hxt)

/-- The identity SELECT finds the unique row with that identity. -/
theorem get_request_some {s : RequestStore} {r : RegistrationRequest}
    (hU : tgUsersUnique s) (hr : r ∈ s) :
    get_request_by_tg_user s r.tg_user_id = some r :=
  find?_eq_of_unique hr (by simp) (fun x hx hxt => tg_row_unique hU hr x hx hxt)

/-- The identity SELECT finds nothing when no row has the identity. -/
theorem get_request_none {s : RequestStore} {uid : Int}
    (h : ∀ x ∈ s, x.tg_user_id ≠ uid) :
    get_request_by_tg_user s uid = none := by
  apply List.find?_eq_none.mpr
  intro x hx
  simpa using h x hx

/-- The fall-through arm of `register_or_get` (any status other than
"approved"/"rejected", in particular "pending" and "deleted"): the result is
AlreadyPending, the status of the identity's row is untouched, only the
display metadata and created_at are refreshed, and no row is added. -/
theorem register_fallthrough {db : RequestDb} {r : RegistrationRequest}
    {uid : Int} (uname dname : Option String) (now : Int)
    (hU : tgUsersUnique db.rows) (hr : r ∈ db.rows) (huid : r.tg_user_id = uid)
    (hna : r.status ≠ "approved") (hnr : r.status ≠ "rejected") :
    register_or_get db uid uname dname now =
      some (RegisterResult.AlreadyPending,
        { db with rows := refreshMeta db.rows uid uname dname now }) ∧
    tgUsersUnique (refreshMeta db.rows uid uname dname now) ∧
    ({ r with tg_username := uname, tg_display_name := dname, created_at := now } :
        RegistrationRequest) ∈ refreshMeta db.rows uid uname dname now ∧
    (refreshMeta db.rows uid uname dname now).length = db.rows.length := by
  subst huid
  have hsome := get_request_some hU hr
  have hna2 : (r.status == "approved") = false := by simpa using hna
  have hnr2 : (r.status == "rejected") = false := by simpa using hnr
  refine ⟨?_, ?_, ?_, List.length_map db.rows _⟩
  · unfold register_or_get
    rw [hsome]
    simp [hna2, hnr2, refreshMeta]
  · exact nodup_map_preserved
      (f := fun x =>
        if x.tg_user_id == r.tg_user_id then
          { x with tg_username := uname, tg_display_name := dname, created_at := now }
        else x)
      (by
        intro x
        by_cases ht : (x.tg_user_id == r.tg_user_id) = true <;> simp [ht]) hU
  · unfold refreshMeta
    apply List.mem_map.mpr
    refine ⟨r, hr, ?_⟩
    simp

/-- Appending a row with a fresh identity preserves the UNIQUE constraint. -/
theorem tg_unique_snoc {s : RequestStore} {nr : RegistrationRequest}
    (hU : tgUsersUnique s) (habs : ∀ x ∈ s, x.tg_user_id ≠ nr.tg_user_id) :
    tgUsersUnique (s ++ [nr]) := by
  show ((s ++ [nr]).map (fun r => r.tg_user_id)).Nodup
  rw [List.map_append]
  apply List.Nodup.append hU (List.nodup_singleton _)
  intro a ha hb
  rw [List.mem_singleton] at hb
  rcases List.mem_map.mp ha with ⟨x, hx, rfl⟩
  exact habs x hx hb

/-- The fresh-identity branch of `register_or_get`: exactly one new Pending
row is inserted and returned as NewPending. -/
theorem register_new {db : RequestDb} {uid : Int}
    (uname dname : Option String) (now : Int)
    (habs : ∀ x ∈ db.rows, x.tg_user_id ≠ uid) :
    register_or_get db uid uname dname now =
      some (RegisterResult.NewPending
        { id := db.next_id
          tg_user_id := uid
          tg_username := uname
          tg_display_name := dname
          status := "pending"
          telemt_username := none
          secret := none
          created_at := now
          resolved_at := none },
        { rows := db.rows ++
            [{ id := db.next_id
               tg_user_id := uid
               tg_username := uname
               tg_display_name := dname
               status := "pending"
               telemt_username := none
               secret := none
               created_at := now
               resolved_at := none }]
          next_id := db.next_id + 1 }) := by
  have hfind : get_pending_by_tg_user
      (db.rows ++
        [{ id := db.next_id
           tg_user_id := uid
           tg_username := uname
           tg_display_name := dname
           status := "pending"
           telemt_username := none
           secret := none
           created_at := now
           resolved_at := none }]) uid =
      some
        { id := db.next_id
          tg_user_id := uid
          tg_username := uname
          tg_display_name := dname
          status := "pending"
          telemt_username := none
          secret := none
          created_at := now
          resolved_at := none } := by
    unfold get_pending_by_tg_user
    rw [find?_append_of_none _ (fun x hx => by simp [habs x hx])]
    rw [List.find?_cons_of_pos _ (by simp)]
  unfold register_or_get
  rw [get_request_none habs]
  simp only [hfind]

/-- Sequential `register_or_get` calls on an identity whose row is Pending
keep answering AlreadyPending and never change the number of rows. -/
theorem registerNTimes_pending (uid : Int) (uname dname : Option String)
    (now : Int) :
    ∀ (n : Nat) (db : RequestDb) (r : RegistrationRequest),
      tgUsersUnique db.rows → r ∈ db.rows → r.tg_user_id = uid →
      r.status = "pending" →
      ∃ db2 : RequestDb,
        registerNTimes uid uname dname now n db =
          some (RegisterResult.AlreadyPending, db2) ∧
        db2.rows.length = db.rows.length
  | 0, db, r, hU, hr, huid, hp => by
    obtain ⟨h1, -, -, h4⟩ := register_fallthrough uname dname now
      hU hr huid (by rw [hp]; decide) (by rw [hp]; decide)
    exact ⟨_, by simpa [registerNTimes] using h1, h4⟩
  | n + 1, db, r, hU, hr, huid, hp => by
    obtain ⟨h1, h2, h3, h4⟩ := register_fallthrough uname dname now
      hU hr huid (by rw [hp]; decide) (by rw [hp]; decide)
    obtain ⟨db2, hih, hlen⟩ := registerNTimes_pending uid uname dname now n
      { db with rows := refreshMeta db.rows uid uname dname now }
      { r with tg_username := uname, tg_display_name := dname, created_at := now }
      h2 h3 huid hp
    refine ⟨db2, ?_, by rw [hlen, h4]⟩
    rw [show registerNTimes uid uname dname now (n + 1) db =
      (match register_or_get db uid uname dname now with
       | some (_, dbx) => registerNTimes uid uname dname now n dbx
       | none => none) from by simp [registerNTimes]]
    rw [h1]
    exact hih

/-- C6: `registerOrGet` is a keyed upsert that never duplicates an identity:
no row means one new Pending row returned as NewPending; an Approved row
with a secret answers Approved(secret) without mutation; Approved without a
secret answers AlreadyPending without mutation; Rejected answers Rejected
without mutation; Pending answers AlreadyPending and refreshes only the
display metadata in place; and starting with no row, every later sequential
call answers AlreadyPending with exactly one row ever added. -/
theorem register_or_get_C6 {db : RequestDb} {uid : Int}
    {uname dname : Option String} {now : Int} (hU : tgUsersUnique db.rows) :
    ((∀ x ∈ db.rows, x.tg_user_id ≠ uid) →
      ∃ req, register_or_get db uid uname dname now =
          some (RegisterResult.NewPending req,
            { rows := db.rows ++ [req], next_id := db.next_id + 1 }) ∧
        req.status = "pending" ∧ req.tg_user_id = uid ∧
        (db.rows ++ [req]).length = db.rows.length + 1) ∧
    (∀ r ∈ db.rows, r.tg_user_id = uid →
      (∀ sec, r.status = "approved" → r.secret = some sec →
        register_or_get db uid uname dname now =
          some (RegisterResult.Approved sec, db)) ∧
      (r.status = "approved" → r.secret = none →
        register_or_get db uid uname dname now =
          some (RegisterResult.AlreadyPending, db)) ∧
      (r.status = "rejected" →
        register_or_get db uid uname dname now =
          some (RegisterResult.Rejected, db)) ∧
      (r.status = "pending" →
        register_or_get db uid uname dname now =
          some (RegisterResult.AlreadyPending,
            { db with rows := refreshMeta db.rows uid uname dname now }) ∧
        ({ r with tg_username := uname, tg_display_name := dname, created_at := now } :
            RegistrationRequest) ∈ refreshMeta db.rows uid uname dname now ∧
        (refreshMeta db.rows uid uname dname now).length = db.rows.length)) ∧
    ((∀ x ∈ db.rows, x.tg_user_id ≠ uid) →
      ∀ n : Nat, 1 ≤ n →
        ∃ db2, registerNTimes uid uname dname now n db =
            some (RegisterResult.AlreadyPending, db2) ∧
          db2.rows.length = db.rows.length + 1) := by
  refine ⟨?_, ?_, ?_⟩
  · intro habs
    refine ⟨_, register_new uname dname now habs, rfl, rfl, by simp⟩
  · intro r hr huid
    subst huid
    have hsome := get_request_some hU hr
    refine ⟨?_, ?_, ?_, ?_⟩
    · intro sec hap hsec
      unfold register_or_get
      rw [hsome]
      simp [hap, hsec]
    · intro hap hsec
      unfold register_or_get
      rw [hsome]
      simp [hap, hsec]
    · intro hrj
      unfold register_or_get
      rw [hsome]
      simp [hrj]
    · intro hp
      obtain ⟨h1, -, h3, h4⟩ := register_fallthrough uname dname now
        hU hr rfl (by rw [hp]; decide)
        (by rw [hp]; decide)
      exact ⟨h1, h3, h4⟩
  · intro habs n hn
    obtain ⟨m, rfl⟩ : ∃ m, n = m + 1 := ⟨n - 1, by omega⟩
    have hfirst := register_new uname dname now habs
    have hU2 : tgUsersUnique (db.rows ++
        [{ id := db.next_id
           tg_user_id := uid
           tg_username := uname
           tg_display_name := dname
           status := "pending"
           telemt_username := none
           secret := none
           created_at := now
           resolved_at := none }]) :=
      tg_unique_snoc hU (fun x hx => habs x hx)
    obtain ⟨db2, hih, hlen⟩ := registerNTimes_pending uid uname dname now m
      { rows := db.rows ++
          [{ id := db.next_id
             tg_user_id := uid
             tg_username := uname
             tg_display_name := dname
             status := "pending"
             telemt_username := none
             secret := none
             created_at := now
             resolved_at := none }]
        next_id := db.next_id + 1 }
      { id := db.next_id
        tg_user_id := uid
        tg_username := uname
        tg_display_name := dname
        status := "pending"
        telemt_username := none
        secret := none
        created_at := now
        resolved_at := none }
      hU2 (by simp) rfl rfl
    refine ⟨db2, ?_, by rw [hlen]; simp⟩
    rw [show registerNTimes uid uname dname now (m + 1) db =
      (match register_or_get db uid uname dname now with
       | some (_, dbx) => registerNTimes uid uname dname now m dbx
       | none => none) from by simp [registerNTimes]]
    rw [hfirst]
    exact hih

/-- Witness for C6 on an initially empty database. -/
theorem register_or_get_C6_witness :
    ((∀ x ∈ (⟨[], 1⟩ : RequestDb).rows, x.tg_user_id ≠ 100) →
      ∃ req, register_or_get ⟨[], 1⟩ 100 (some "alice") (some "Alice") 10 =
          some (RegisterResult.NewPending req,
            { rows := (⟨[], 1⟩ : RequestDb).rows ++ [req], next_id := 1 + 1 }) ∧
        req.status = "pending" ∧ req.tg_user_id = 100 ∧
        ((⟨[], 1⟩ : RequestDb).rows ++ [req]).length =
          (⟨[], 1⟩ : RequestDb).rows.length + 1) ∧
    (∀ r ∈ (⟨[], 1⟩ : RequestDb).rows, r.tg_user_id = 100 →
      (∀ sec, r.status = "approved" → r.secret = some sec →
        register_or_get ⟨[], 1⟩ 100 (some "alice") (some "Alice") 10 =
          some (RegisterResult.Approved sec, ⟨[], 1⟩)) ∧
      (r.status = "approved" → r.secret = none →
        register_or_get ⟨[], 1⟩ 100 (some "alice") (some "Alice") 10 =
          some (RegisterResult.AlreadyPending, ⟨[], 1⟩)) ∧
      (r.status = "rejected" →
        register_or_get ⟨[], 1⟩ 100 (some "alice") (some "Alice") 10 =
          some (RegisterResult.Rejected, ⟨[], 1⟩)) ∧
      (r.status = "pending" →
        register_or_get ⟨[], 1⟩ 100 (some "alice") (some "Alice") 10 =
          some (RegisterResult.AlreadyPending,
            { (⟨[], 1⟩ : RequestDb) with
                rows := refreshMeta (⟨[], 1⟩ : RequestDb).rows 100
                  (some "alice") (some "Alice") 10 }) ∧
        ({ r with
            tg_username := some "alice"
            tg_display_name := some "Alice"
            created_at := 10 } : RegistrationRequest) ∈
          refreshMeta (⟨[], 1⟩ : RequestDb).rows 100 (some "alice") (some "Alice") 10 ∧
        (refreshMeta (⟨[], 1⟩ : RequestDb).rows 100 (some "alice")
            (some "Alice") 10).length = (⟨[], 1⟩ : RequestDb).rows.length)) ∧
    ((∀ x ∈ (⟨[], 1⟩ : RequestDb).rows, x.tg_user_id ≠ 100) →
      ∀ n : Nat, 1 ≤ n →
        ∃ db2, registerNTimes 100 (some "alice") (some "Alice") 10 n ⟨[], 1⟩ =
            some (RegisterResult.AlreadyPending, db2) ∧
          db2.rows.length = (⟨[], 1⟩ : RequestDb).rows.length + 1) :=
  register_or_get_C6 (by decide)

/-- C10: for an identity whose row is Deleted, `registerOrGet` answers
AlreadyPending and refreshes the display metadata in place, but the row stays
Deleted, no Pending row exists afterwards, no row is added, and access is not
restored (the approved lookup still finds nothing). -/
theorem register_deleted_C10 {db : RequestDb} {r : RegistrationRequest}
    {uid : Int} {uname dname : Option String} {now : Int}
    (hU : tgUsersUnique db.rows) (hr : r ∈ db.rows) (huid : r.tg_user_id = uid)
    (hdel : r.status = "deleted") :
    register_or_get db uid uname dname now =
      some (RegisterResult.AlreadyPending,
        { db with rows := refreshMeta db.rows uid uname dname now }) ∧
    ({ r with tg_username := uname, tg_display_name := dname, created_at := now } :
        RegistrationRequest) ∈ refreshMeta db.rows uid uname dname now ∧
    (∀ x ∈ refreshMeta db.rows uid uname dname now, x.tg_user_id = uid →
      x.status = "deleted") ∧
    (refreshMeta db.rows uid uname dname now).length = db.rows.length ∧
    get_pending_by_tg_user (refreshMeta db.rows uid uname dname now) uid = none ∧
    get_approved (refreshMeta db.rows uid uname dname now) uid = none := by
  subst huid
  obtain ⟨h1, -, h3, h4⟩ := register_fallthrough uname dname now
    hU hr rfl (by rw [hdel]; decide) (by rw [hdel]; decide)
  have hstat : ∀ x ∈ refreshMeta db.rows r.tg_user_id uname dname now,
      x.tg_user_id = r.tg_user_id → x.status = "deleted" := by
    intro x hx hxid
    rcases List.mem_map.mp hx with ⟨y, hy, rfl⟩
    by_cases ht : (y.tg_user_id == r.tg_user_id) = true
    · have hyy := tg_row_unique hU hr y hy ht
      subst hyy
      simp [hdel]
    · have hyid : y.tg_user_id = r.tg_user_id := by simpa [ht] using hxid
      exact absurd (by simp [hyid]) ht
  have hpend : get_pending_by_tg_user
      (refreshMeta db.rows r.tg_user_id uname dname now) r.tg_user_id = none := by
    apply List.find?_eq_none.mpr
    intro x hx
    by_cases hxid : x.tg_user_id = r.tg_user_id
    · have hxs := hstat x hx hxid
      simp [hxs]
    · simp [hxid]
  have happ : get_approved
      (refreshMeta db.rows r.tg_user_id uname dname now) r.tg_user_id = none := by
    have hfind : (refreshMeta db.rows r.tg_user_id uname dname now).find?
        (fun x => x.tg_user_id == r.tg_user_id && x.status == "approved") = none := by
      apply List.find?_eq_none.mpr
      intro x hx
      by_cases hxid : x.tg_user_id = r.tg_user_id
      · have hxs := hstat x hx hxid
        simp [hxs]
      · simp [hxid]
    unfold get_approved
    rw [hfind]
  exact ⟨h1, h3, hstat, h4, hpend, happ⟩

/-- Witness for C10 on a concrete store. -/
theorem register_deleted_C10_witness :
    register_or_get ⟨[deletedRow], 3⟩ 200 (some "bob2") (some "Bobby") 10 =
      some (RegisterResult.AlreadyPending,
        { (⟨[deletedRow], 3⟩ : RequestDb) with
            rows := refreshMeta (⟨[deletedRow], 3⟩ : RequestDb).rows 200
              (some "bob2") (some "Bobby") 10 }) ∧
    ({ deletedRow with
        tg_username := some "bob2"
        tg_display_name := some "Bobby"
        created_at := 10 } : RegistrationRequest) ∈
      refreshMeta (⟨[deletedRow], 3⟩ : RequestDb).rows 200 (some "bob2")
        (some "Bobby") 10 ∧
    (∀ x ∈ refreshMeta (⟨[deletedRow], 3⟩ : RequestDb).rows 200 (some "bob2")
        (some "Bobby") 10, x.tg_user_id = 200 → x.status = "deleted") ∧
    (refreshMeta (⟨[deletedRow], 3⟩ : RequestDb).rows 200 (some "bob2")
        (some "Bobby") 10).length = (⟨[deletedRow], 3⟩ : RequestDb).rows.length ∧
    get_pending_by_tg_user (refreshMeta (⟨[deletedRow], 3⟩ : RequestDb).rows 200
        (some "bob2") (some "Bobby") 10) 200 = none ∧
    get_approved (refreshMeta (⟨[deletedRow], 3⟩ : RequestDb).rows 200
        (some "bob2") (some "Bobby") 10) 200 = none :=
  register_deleted_C10 (by decide) (by simp) (by decide) (by decide)

/-- The upserted pair is present after `upsert_user`. -/
theorem upsert_user_mem (cfg : CredStore) (user sec : String) :
    (user, sec) ∈ upsert_user cfg user sec := by
  unfold upsert_user
  by_cases h : cfg.any (fun p => p.1 == user) = true
  · rw [if_pos h]
    rcases List.any_eq_true.mp h with ⟨p, hp, hpu⟩
    apply List.mem_map.mpr
    exact ⟨p, hp, by simp [hpu]⟩
  · rw [if_neg h]
    simp

/-- C7: the Credential Store write strictly precedes the Ledger commit — if
the credential write fails the workflow aborts with the state (Ledger
included) untouched and nothing is granted; and when the write and the
parameter read succeed on a Pending request, the workflow grants and returns
the connection link regardless of whether the restart succeeded (a restart
failure only adds a warning), with the credential pair present in the
Credential Store. -/
theorem workflow_order_C7 {st : WorkflowState} {io : WorkflowIO}
    {request_id now : Int} :
    (io.upsertOk = false →
      (approve_request_and_build_link st io request_id now).2 = st ∧
      ∀ req link, (approve_request_and_build_link st io request_id now).1 ≠
        WorkflowResult.granted req link) ∧
    (∀ req, io.upsertOk = true → io.readParamsOk = true →
      get_pending_by_id st.ledger request_id = some req →
      (approve_request_and_build_link st io request_id now).1 =
        WorkflowResult.granted req (build_proxy_link io.linkParams io.secret) ∧
      (approve_request_and_build_link st io request_id now).2.restartAttempts =
        st.restartAttempts + 1 ∧
      (approve_request_and_build_link st io request_id now).2.warnings =
        st.warnings + (if io.restartOk then 0 else 1) ∧
      (telemt_username req.tg_user_id, io.secret) ∈
        (approve_request_and_build_link st io request_id now).2.cfg ∧
      (approve_request_and_build_link st io request_id now).2.ledger =
        approveUpdate st.ledger request_id (telemt_username req.tg_user_id)
          io.secret now) := by
  constructor
  · intro hup
    unfold approve_request_and_build_link
    cases hsel : get_pending_by_id st.ledger request_id with
    | none =>
      exact ⟨rfl, fun req link => by simp⟩
    | some request =>
      rw [hup]
      exact ⟨rfl, fun req link => by simp⟩
  · intro req hup hrp hsel
    have happrove : approve st.ledger request_id
        (telemt_username req.tg_user_id) io.secret now =
        (some req, approveUpdate st.ledger request_id
          (telemt_username req.tg_user_id) io.secret now) := by
      unfold approve
      rw [hsel]
    have h0 : approve_request_and_build_link st io request_id now =
        (WorkflowResult.granted req (build_proxy_link io.linkParams io.secret),
         restart_telemt_service
           { st with
               ledger := approveUpdate st.ledger request_id
                 (telemt_username req.tg_user_id) io.secret now
               cfg := upsert_user st.cfg (telemt_username req.tg_user_id) io.secret }
           io.restartOk) := by
      unfold approve_request_and_build_link
      rw [hsel]
      simp only []
      rw [if_neg (by simp [hup]), happrove]
      simp only []
      rw [if_neg (by simp [hrp])]
    rw [h0]
    refine ⟨rfl, rfl, ?_, upsert_user_mem st.cfg _ io.secret, rfl⟩
    cases io.restartOk <;> simp [restart_telemt_service]

/-- Witness for C7: abort without mutation on credential-write failure, and
a granted link despite a failing restart. -/
theorem workflow_order_C7_witness :
    ((approve_request_and_build_link wfState0 ioUpsertFail 1 50).2 = wfState0 ∧
      ∀ req link, (approve_request_and_build_link wfState0 ioUpsertFail 1 50).1 ≠
        WorkflowResult.granted req link) ∧
    ((approve_request_and_build_link wfState0 ioRestartFail 1 50).1 =
        WorkflowResult.granted racePendingRow
          (build_proxy_link ioRestartFail.linkParams ioRestartFail.secret) ∧
      (approve_request_and_build_link wfState0 ioRestartFail 1 50).2.restartAttempts =
        wfState0.restartAttempts + 1 ∧
      (approve_request_and_build_link wfState0 ioRestartFail 1 50).2.warnings =
        wfState0.warnings + (if ioRestartFail.restartOk then 0 else 1) ∧
      (telemt_username racePendingRow.tg_user_id, ioRestartFail.secret) ∈
        (approve_request_and_build_link wfState0 ioRestartFail 1 50).2.cfg ∧
      (approve_request_and_build_link wfState0 ioRestartFail 1 50).2.ledger =
        approveUpdate wfState0.ledger 1
          (telemt_username racePendingRow.tg_user_id) ioRestartFail.secret 50) :=
  ⟨workflow_order_C7.1 rfl,
   workflow_order_C7.2 racePendingRow rfl rfl (by decide)⟩

/-- C8: the ban removes the identity's credential from the Credential Store,
marks the Ledger row Deleted only where it was Approved, requests a restart
exactly when the credential removal changed the Credential Store, and — with
no credential entry and no Approved row — reports "not found" with zero
mutations and zero restarts. -/
theorem hard_ban_C8 {st : WorkflowState} {restartOk : Bool} {uid : Int} :
    ((perform_hard_ban st restartOk uid).2.restartAttempts =
      st.restartAttempts +
        (if st.cfg.any (fun p => p.1 == telemt_username uid) then 1 else 0)) ∧
    ((perform_hard_ban st restartOk uid).2.ledger =
      st.ledger.map (fun r =>
        if r.tg_user_id == uid && r.status == "approved" then
          { r with status := "deleted" }
        else r)) ∧
    ((perform_hard_ban st restartOk uid).2.cfg =
      st.cfg.filter (fun p => !(p.1 == telemt_username uid))) ∧
    ((∀ p ∈ st.cfg, p.1 ≠ telemt_username uid) →
      (∀ r ∈ st.ledger, r.tg_user_id = uid → r.status ≠ "approved") →
      perform_hard_ban st restartOk uid = (false, st)) := by
  refine ⟨?_, ?_, ?_, ?_⟩
  · cases h : st.cfg.any (fun p => p.1 == telemt_username uid) <;>
      simp [perform_hard_ban, remove_user, restart_telemt_service, h]
  · cases h : st.cfg.any (fun p => p.1 == telemt_username uid) <;>
      simp [perform_hard_ban, remove_user, deactivate_user,
        restart_telemt_service, h]
  · cases h : st.cfg.any (fun p => p.1 == telemt_username uid) <;>
      simp [perform_hard_ban, remove_user, restart_telemt_service, h]
  · intro hcfg hled
    have hany : st.cfg.any (fun p => p.1 == telemt_username uid) = false := by
      apply List.any_eq_false.mpr
      intro p hp
      simp [hcfg p hp]
    have hfil : st.cfg.filter (fun p => !(p.1 == telemt_username uid)) = st.cfg := by
      apply List.filter_eq_self.mpr
      intro p hp
      simp [hcfg p hp]
    have hdel0 : (st.ledger.filter
        (fun r => r.tg_user_id == uid && r.status == "approved")).length = 0 :=
      filter_length_zero (fun x hx => by
        by_cases h2 : x.tg_user_id = uid
        · simp [h2, hled x hx h2]
        · simp [h2])
    have hmapid : st.ledger.map (fun r =>
        if r.tg_user_id == uid && r.status == "approved" then
          { r with status := "deleted" }
        else r) = st.ledger :=
      map_id_mem (fun x hx => by
        by_cases h2 : x.tg_user_id = uid
        · simp [h2, hled x hx h2]
        · simp [h2])
    unfold perform_hard_ban remove_user deactivate_user
    simp only [hany, hfil, hdel0, hmapid]
    simp

/-- Witness for C8 at a concrete state. -/
theorem hard_ban_C8_witness :
    ((perform_hard_ban banState0 true 300).2.restartAttempts =
      banState0.restartAttempts +
        (if banState0.cfg.any (fun p => p.1 == telemt_username 300) then 1 else 0)) ∧
    ((perform_hard_ban banState0 true 300).2.ledger =
      banState0.ledger.map (fun r =>
        if r.tg_user_id == 300 && r.status == "approved" then
          { r with status := "deleted" }
        else r)) ∧
    ((perform_hard_ban banState0 true 300).2.cfg =
      banState0.cfg.filter (fun p => !(p.1 == telemt_username 300))) ∧
    perform_hard_ban banState0 true 300 = (false, banState0) :=
  ⟨hard_ban_C8.1, hard_ban_C8.2.1, hard_ban_C8.2.2.1,
   hard_ban_C8.2.2.2 (by decide) (by decide)⟩

/-- `getD` stays inside the list when the default is in the list. -/
theorem getD_mem {l : List Char} {d : Char} (hd : d ∈ l) (i : Nat) :
    l.getD i d ∈ l := by
  by_cases h : i < l.length
  · rw [List.getD_eq_getElem l d h]
    exact List.getElem_mem h
  · rw [List.getD_eq_default l d (by omega)]
    exact hd

/-- Generated tokens have length 10 and draw from the alphanumeric set. -/
theorem generate_invite_token_wf (rand : Nat → Nat) (base : Nat) :
    (generate_invite_token rand base).length = 10 ∧
    ∀ c ∈ (generate_invite_token rand base).toList, c ∈ alphanumericChars := by
  constructor
  · show ((List.range 10).map
      (fun j => alphanumericChars.getD (rand (base + j) % 62) 'A')).length = 10
    rw [List.length_map, List.length_range]
  · intro c hc
    have hc2 : c ∈ (List.range 10).map
        (fun j => alphanumericChars.getD (rand (base + j) % 62) 'A') := hc
    rcases List.mem_map.mp hc2 with ⟨j, -, rfl⟩
    exact getD_mem (by decide) _

/-- A successful run of the retry loop returns the freshly inserted row: usage
count 0, active, the requested expiry, persisted in the returned database,
and its token is one of the candidates offered. -/
theorem createLoop_success {cand : Nat → String} {now expires_at : Int}
    {auto_approve : Bool} {created_by max_usage : Option Int} :
    ∀ (l : List Nat) (db : TokenDb) (row : InviteToken) (db2 : TokenDb),
      createLoop cand now expires_at auto_approve created_by max_usage l db =
        some (row, db2) →
      row.usage_count = 0 ∧ row.is_active = true ∧ row.expires_at = expires_at ∧
      row ∈ db2.rows ∧ ∃ i ∈ l, row.token = cand i
  | [], db, row, db2, h => by simp [createLoop] at h
  | i :: rest, db, row, db2, h => by
    simp only [createLoop] at h
    cases hins : insertInviteToken db (cand i) now expires_at auto_approve
        created_by max_usage with
    | none =>
      rw [hins] at h
      obtain ⟨h1, h2, h3, h4, j, hj, h5⟩ :=
        createLoop_success rest db row db2 h
      exact ⟨h1, h2, h3, h4, j, List.mem_cons_of_mem i hj, h5⟩
    | some db3 =>
      rw [hins] at h
      have hins2 := hins
      unfold insertInviteToken at hins2
      by_cases hany : db.rows.any (fun r => r.token == cand i) = true
      · rw [if_pos hany] at hins2
        exact absurd hins2 (by simp)
      · rw [if_neg hany] at hins2
        have hforall : ∀ r ∈ db.rows, (r.token == cand i) = false := by
          intro r hr
          have hany2 : db.rows.any (fun r => r.token == cand i) = false := by
            simpa using hany
          have := List.any_eq_false.mp hany2 r hr
          simpa using this
        injection hins2 with hEq
        subst hEq
        have hfind : findToken (db.rows ++
            [freshTokenRow db.next_id (cand i) now expires_at auto_approve
              created_by max_usage]) (cand i) =
            some (freshTokenRow db.next_id (cand i) now expires_at auto_approve
              created_by max_usage) := by
          unfold findToken
          rw [find?_append_of_none _ (fun r hr => hforall r hr),
            List.find?_cons_of_pos _ (by simp [freshTokenRow])]
        simp only [] at h
        rw [hfind] at h
        simp only [Option.some_inj, Prod.mk.injEq] at h
        obtain ⟨hrow, hdbeq⟩ := h
        subst hrow
        subst hdbeq
        refine ⟨rfl, rfl, rfl, ?_, i, List.mem_cons_self i rest, rfl⟩
        simp

/-- When every candidate collides with an existing token, the loop reports
failure without mutating the database. -/
theorem createLoop_exhausted {cand : Nat → String} {now expires_at : Int}
    {auto_approve : Bool} {created_by max_usage : Option Int} :
    ∀ (l : List Nat) (db : TokenDb),
      (∀ i ∈ l, ∃ r ∈ db.rows, r.token = cand i) →
      createLoop cand now expires_at auto_approve created_by max_usage l db = none
  | [], db, _ => by simp [createLoop]
  | i :: rest, db, h => by
    obtain ⟨r, hr, htok⟩ := h i (List.mem_cons_self i rest)
    have hins : insertInviteToken db (cand i) now expires_at auto_approve
        created_by max_usage = none := by
      unfold insertInviteToken
      rw [if_pos (List.any_eq_true.mpr ⟨r, hr, by simp [htok]⟩)]
    simp only [createLoop, hins]
    exact createLoop_exhausted rest db
      (fun j hj => h j (List.mem_cons_of_mem i hj))

/-- C9: token creation rejects `days < 1` (at the command boundary) and an
overflowing `days * 86400` (via checked arithmetic); on success the persisted
row has `usageCount = 0`, `isActive = true`, `expiresAt = now + days*86400`,
and a token string of exactly 10 alphanumeric characters taken from one of
the at most 8 generation attempts; if all 8 candidates collide with existing
tokens the creation fails. -/
theorem create_token_C9 {db : TokenDb} {rand : Nat → Nat}
    {now days max_token_days : Int} {auto_approve allow_auto : Bool}
    {max_usage created_by : Option Int} :
    (days < 1 →
      cmd_token_create db (fun i => generate_invite_token rand (10 * i)) now days
        max_token_days auto_approve allow_auto max_usage created_by = none) ∧
    (¬ (i64Min ≤ days * 86400 ∧ days * 86400 ≤ i64Max) →
      create_invite_token db (fun i => generate_invite_token rand (10 * i)) now
        days auto_approve max_usage created_by = none) ∧
    (∀ row db2,
      create_invite_token db (fun i => generate_invite_token rand (10 * i)) now
        days auto_approve max_usage created_by = some (row, db2) →
      row.usage_count = 0 ∧ row.is_active = true ∧
      row.expires_at = now + days * 86400 ∧ row ∈ db2.rows ∧
      row.token.length = 10 ∧
      (∀ c ∈ row.token.toList, c ∈ alphanumericChars) ∧
      ∃ i < 8, row.token = generate_invite_token rand (10 * i)) ∧
    ((∀ i < 8, ∃ r ∈ db.rows, r.token = generate_invite_token rand (10 * i)) →
      create_invite_token db (fun i => generate_invite_token rand (10 * i)) now
        days auto_approve max_usage created_by = none) := by
  refine ⟨?_, ?_, ?_, ?_⟩
  · intro h
    unfold cmd_token_create
    rw [if_pos h]
  · intro h
    unfold create_invite_token checked_mul
    rw [if_neg h]
  · intro row db2 h
    unfold create_invite_token at h
    by_cases hmul : i64Min ≤ days * 86400 ∧ days * 86400 ≤ i64Max
    · rw [show checked_mul days 86400 = some (days * 86400) from by
        unfold checked_mul; rw [if_pos hmul]] at h
      simp only [] at h
      by_cases hadd : i64Min ≤ now + days * 86400 ∧ now + days * 86400 ≤ i64Max
      · rw [show checked_add now (days * 86400) = some (now + days * 86400) from by
          unfold checked_add; rw [if_pos hadd]] at h
        simp only [] at h
        obtain ⟨h1, h2, h3, h4, i, hi, h5⟩ := createLoop_success _ _ _ _ h
        have hwf := generate_invite_token_wf rand (10 * i)
        refine ⟨h1, h2, h3, h4, ?_, ?_, i, List.mem_range.mp hi, h5⟩
        · rw [h5]
          exact hwf.1
        · rw [h5]
          exact hwf.2
      · rw [show checked_add now (days * 86400) = none from by
          unfold checked_add; rw [if_neg hadd]] at h
        simp at h
    · rw [show checked_mul days 86400 = none from by
        unfold checked_mul; rw [if_neg hmul]] at h
      simp at h
  · intro h
    unfold create_invite_token
    cases hmul : checked_mul days 86400 with
    | none => rfl
    | some ttl =>
      simp only []
      cases hadd : checked_add now ttl with
      | none => rfl
      | some expires_at =>
        exact createLoop_exhausted (List.range 8) db
          (fun i hi => h i (List.mem_range.mp hi))

/-- Witness for C9: days = 0 is rejected, and a concrete creation on an empty
store succeeds with a fresh, active, zero-usage, 10-character row. -/
theorem create_token_C9_witness :
    cmd_token_create ⟨[], 1⟩ (fun i => generate_invite_token (fun n => n) (10 * i))
      0 0 30 false true none none = none ∧
    (witnessTokenRow.usage_count = 0 ∧ witnessTokenRow.is_active = true ∧
      witnessTokenRow.expires_at = 0 + 7 * 86400 ∧
      witnessTokenRow ∈ (⟨[witnessTokenRow], 2⟩ : TokenDb).rows ∧
      witnessTokenRow.token.length = 10 ∧
      (∀ c ∈ witnessTokenRow.token.toList, c ∈ alphanumericChars) ∧
      ∃ i < 8, witnessTokenRow.token = generate_invite_token (fun n => n) (10 * i)) :=
  ⟨(@create_token_C9 ⟨[], 1⟩ (fun n => n) 0 0 30 false true none none).1 (by decide),
   (@create_token_C9 ⟨[], 1⟩ (fun n => n) 0 7 30 false true none none).2.2.1
     witnessTokenRow ⟨[witnessTokenRow], 2⟩ (by decide)⟩
